import Mathlib

set_option autoImplicit false

/-!
Verification of the migrator-etl dimension-resolution and batch-load engine

Shallow embedding of the repository's core (src/models/repositories.py,
src/services/data_processor.py, src/services/data_loader.py) in Lean 4.

Modelling conventions:
* The relational store is explicit state: a dimension table is a list of rows
  plus the next value of its serial id sequence.  A SQLAlchemy session is a
  pair (committed, current): statements act on `current`, `commit` publishes
  `current`, `rollback` restores `committed`.
* Python dicts keyed by natural keys are modelled as functions to `Option Nat`
  (the `.get` view).  `d.update(e)` is `unionMap d e` (right operand wins).
* Python set iteration (e.g. `list(set(xs))`, `set(a) - set(b)`) has
  unspecified order; it is determinized as `List.dedup` of the source list in
  first-occurrence order.  Every theorem below is insensitive to that order.
* External concurrency (a second migration run committing between this run's
  SELECT and its INSERTs) is modelled by a `concurrent` parameter: rows that
  the other, independently committing run inserts between the two phases.
* Storage failures (database unreachable) are modelled by boolean fault flags
  on the operations whose Python bodies can raise `SQLAlchemyError`.
* Python ints are `Int`; `//` and `%` on a positive divisor agree with Lean's
  `Int` division and modulus, which is what appears below.  Measure columns
  (floats that the code only passes through, never computes with) are `Rat`.
-/

/-! ## Calendar dates -/

/-- A calendar date (what Python `datetime.date` carries). -/
structure Date where
  year : Nat
  month : Nat
  day : Nat
deriving DecidableEq, Repr

def isLeap (y : Nat) : Bool :=
  (y % 4 = 0 && y % 100 != 0) || (y % 400 = 0)

def daysInMonth (y m : Nat) : Nat :=
  if m = 2 then (if isLeap y then 29 else 28)
  else if m = 4 || m = 6 || m = 9 || m = 11 then 30
  else 31

/-- Build a date, enforcing the validity checks `datetime.strptime` performs. -/
def mkValidDate (y m d : Nat) : Option Date :=
  if 1 ≤ m ∧ m ≤ 12 ∧ 1 ≤ d ∧ d ≤ daysInMonth y m then some ⟨y, m, d⟩ else none

/-- Zero-pad a number to two digits, as `strftime` does for `%m`. -/
def pad2 (n : Nat) : String :=
  if n < 10 then "0" ++ toString n else toString n

/-- Model of `date.strftime('%Y-%m')`. -/
def strftimeYM (d : Date) : String :=
  toString d.year ++ "-" ++ pad2 d.month

/-! ## Dict-as-function maps -/

/-- Point update of a dict, `d[k] = v`. -/
def updMap {α : Type} [DecidableEq α] (m : α → Option Nat) (k : α) (v : Nat) :
    α → Option Nat :=
  fun x => if x = k then some v else m x

/-- Python `d.update(e)`: entries of the right operand win. -/
def unionMap {α : Type} (d e : α → Option Nat) : α → Option Nat :=
  fun x => match e x with
  | some v => some v
  | none => d x

/-- Python truthiness of an optional integer: `None` and `0` are falsy.
The fact-row filters (`if tiempo_id and barra_id`, `all([...])`) test exactly
this, not key presence. -/
def truthy : Option Nat → Bool
  | none => false
  | some v => v != 0

/-- Storage-level errors (`SQLAlchemyError` in the source).
`statementError` is SQLAlchemy's `StatementError` for a bind parameter that
the supplied dict does not provide. -/
inductive DBError where
  | uniqueViolation
  | storageFailure
  | statementError
deriving DecidableEq, Repr

/-! ## The barra (location) dimension — `BarraRepository` -/

/-- A row of table `barra`. -/
structure BarraRow where
  id_barra : Nat
  nombre : String
deriving DecidableEq, Repr

/-- The `barra` table plus its id sequence. -/
structure BarraDB where
  rows : List BarraRow
  nextId : Nat
deriving DecidableEq, Repr

/-- `SELECT id_barra FROM barra WHERE nombre = n` (unique constraint on
`nombre` means at most one row matches in any reachable state). -/
def findBarra : List BarraRow → String → Option Nat
  | [], _ => none
  | r :: rest, n => if r.nombre = n then some r.id_barra else findBarra rest n

/-- Number of `barra` rows holding natural key `n`. -/
def countBarra (rows : List BarraRow) (n : String) : Nat :=
  (rows.filter (fun r => r.nombre = n)).length

/-- Well-formedness guaranteed by the store: the unique constraint on
`nombre` holds and serial ids are positive (PostgreSQL sequences start at 1). -/
def BarraWF (db : BarraDB) : Prop :=
  (db.rows.map (fun r => r.nombre)).Nodup ∧ 0 < db.nextId ∧
    ∀ r ∈ db.rows, 0 < r.id_barra

/-- Rows committed by a concurrent, independent migration run.  The other run
uses the same resolver protocol, so it only inserts names it did not find. -/
def commitConcurrentBarras : BarraDB → List String → BarraDB
  | db, [] => db
  | db, n :: rest =>
    if (findBarra db.rows n).isSome then commitConcurrentBarras db rest
    else commitConcurrentBarras ⟨db.rows ++ [⟨db.nextId, n⟩], db.nextId + 1⟩ rest

/-- The insert loop of `insert_or_get_barras` (repositories.py:33-40).  Each
new name is inserted with a plain
`INSERT INTO barra (nombre) VALUES (:nombre) RETURNING id_barra` — there is
no ON CONFLICT clause, so a name that meanwhile exists violates the unique
constraint and the statement raises. -/
def insertBarrasLoop (rows : List BarraRow) (nid : Nat) (acc : String → Option Nat) :
    List String → Except DBError (List BarraRow × Nat × (String → Option Nat))
  | [] => .ok (rows, nid, acc)
  | n :: rest =>
    if (findBarra rows n).isSome then .error .uniqueViolation
    else insertBarrasLoop (rows ++ [⟨nid, n⟩]) (nid + 1) (updMap acc n nid) rest

/-- `BarraRepository.insert_or_get_barras` (repositories.py:15-50).
Looks up the candidate names, inserts the missing ones one by one, commits and
returns the name-to-id dict; on `SQLAlchemyError` it rolls back and re-raises.
`concurrent` are rows another run commits between the SELECT and the INSERTs
(the committed state the rollback cannot undo). -/
def insert_or_get_barras (concurrent : List String) (db : BarraDB)
    (barras_names : List String) : BarraDB × Except DBError (String → Option Nat) :=
  let existing : String → Option Nat :=
    fun n => if n ∈ barras_names then findBarra db.rows n else none
  let db1 := commitConcurrentBarras db concurrent
  let new_barras := barras_names.dedup.filter (fun n => (findBarra db.rows n).isNone)
  match insertBarrasLoop db1.rows db1.nextId existing new_barras with
  | .error e => (db1, .error e)
  | .ok (rows, nid, barras_map) => (⟨rows, nid⟩, .ok barras_map)

/-! ## The time dimension — `TiempoRepository` -/

/-- Natural key of `dim_tiempo`: the (fecha, hora, minuto) triple. -/
structure TiempoKey where
  fecha : Date
  hora : Int
  minuto : Int
deriving DecidableEq, Repr

/-- One element of the `tiempos_data` list the processors build: the dict
with keys fecha/hora/minuto/cuarto_hora and optionally clave_anio_mes. -/
structure TiempoData where
  fecha : Date
  hora : Int
  minuto : Int
  cuarto_hora : Int
  clave_anio_mes : Option String
deriving DecidableEq, Repr

def TiempoData.key (t : TiempoData) : TiempoKey :=
  ⟨t.fecha, t.hora, t.minuto⟩

/-- A row of table `dim_tiempo`. -/
structure TiempoRow where
  id_tiempo : Nat
  fecha : Date
  hora : Int
  minuto : Int
  cuarto_hora : Int
  clave_anio_mes : String
deriving DecidableEq, Repr

def TiempoRow.key (r : TiempoRow) : TiempoKey :=
  ⟨r.fecha, r.hora, r.minuto⟩

/-- The `dim_tiempo` table plus its id sequence. -/
structure TiempoDB where
  rows : List TiempoRow
  nextId : Nat
deriving DecidableEq, Repr

/-- A session over `dim_tiempo`: `current` is what this session's statements
see, `committed` is what survives a rollback. -/
structure TiempoSession where
  committed : TiempoDB
  current : TiempoDB
deriving DecidableEq, Repr

def findTiempo : List TiempoRow → TiempoKey → Option Nat
  | [], _ => none
  | r :: rest, k => if r.key = k then some r.id_tiempo else findTiempo rest k

def countTiempo (rows : List TiempoRow) (k : TiempoKey) : Nat :=
  (rows.filter (fun r => r.key = k)).length

def TiempoWF (db : TiempoDB) : Prop :=
  (db.rows.map TiempoRow.key).Nodup ∧ 0 < db.nextId ∧
    ∀ r ∈ db.rows, 0 < r.id_tiempo

/-- The defaulted columns of `_insert_new_tiempos_batch` (repositories.py:160-161):
`cuarto_hora` is always supplied by the processors, `clave_anio_mes` defaults
to `fecha.strftime('%Y-%m')`. -/
def claveOf (t : TiempoData) : String :=
  match t.clave_anio_mes with
  | some s => s
  | none => strftimeYM t.fecha

/-- `TiempoRepository._get_existing_tiempos_batch` (repositories.py:89-136).
Loads the candidate keys into a temp table and joins; returns the key-to-id
dict.  On ANY exception it logs, ROLLS BACK the session and returns `{}` —
the failure is swallowed, not raised (repositories.py:133-136). -/
def getExistingTiemposBatch (fail : Bool) (s : TiempoSession)
    (tiempo_tuples : List TiempoKey) : TiempoSession × (TiempoKey → Option Nat) :=
  if fail then (⟨s.committed, s.committed⟩, fun _ => none)
  else (s, fun k => if k ∈ tiempo_tuples then findTiempo s.current.rows k else none)

/-- The per-row insert loop of `_insert_new_tiempos_batch`
(repositories.py:155-171): `INSERT ... ON CONFLICT (fecha, hora, minuto) DO
NOTHING RETURNING ...`; a conflicting row returns no id and is skipped. -/
def insertTiemposLoop (rows : List TiempoRow) (nid : Nat)
    (acc : TiempoKey → Option Nat) :
    List TiempoData → List TiempoRow × Nat × (TiempoKey → Option Nat)
  | [] => (rows, nid, acc)
  | t :: rest =>
    if (findTiempo rows t.key).isSome then insertTiemposLoop rows nid acc rest
    else
      insertTiemposLoop
        (rows ++ [⟨nid, t.fecha, t.hora, t.minuto, t.cuarto_hora, claveOf t⟩])
        (nid + 1) (updMap acc t.key nid) rest

/-- `TiempoRepository._insert_new_tiempos_batch` (repositories.py:138-189).
Inserts conflict-tolerantly, then recovers the ids of keys that lost a race by
re-querying them; an insert failure raises.  `insertFails` injects a storage
fault on the first insert, `recoveryFails` on the recovery lookup. -/
def insertNewTiemposBatch (insertFails recoveryFails : Bool) (s : TiempoSession) :
    List TiempoData → Except DBError (TiempoSession × (TiempoKey → Option Nat))
  | [] => .ok (s, fun _ => none)
  | t :: rest =>
    if insertFails then .error .storageFailure
    else
      match insertTiemposLoop s.current.rows s.current.nextId (fun _ => none) (t :: rest) with
      | (rows, nid, nuevos_ids) =>
        let s1 : TiempoSession := ⟨s.committed, ⟨rows, nid⟩⟩
        let missing_keys :=
          ((t :: rest).map TiempoData.key).dedup.filter (fun k => (nuevos_ids k).isNone)
        match missing_keys with
        | [] => .ok (s1, nuevos_ids)
        | _ :: _ =>
          match getExistingTiemposBatch recoveryFails s1 missing_keys with
          | (s2, missing_map) => .ok (s2, unionMap nuevos_ids missing_map)

/-- Rows committed by a concurrent run between this run's lookup and inserts;
like the resolver itself, the other run only creates keys that are absent. -/
def commitConcurrentTiempos : TiempoDB → List TiempoData → TiempoDB
  | db, [] => db
  | db, t :: rest =>
    if (findTiempo db.rows t.key).isSome then commitConcurrentTiempos db rest
    else
      commitConcurrentTiempos
        ⟨db.rows ++ [⟨db.nextId, t.fecha, t.hora, t.minuto, t.cuarto_hora, claveOf t⟩],
          db.nextId + 1⟩ rest

/-- `TiempoRepository.insert_or_get_tiempos` (repositories.py:59-87).
Returns the committed store plus the result: the key-to-id dict on success, or
the propagated error after rollback.  `lookupFails` injects a storage fault on
the initial existing-rows lookup; `concurrent` are rows another run commits
between that lookup and the inserts. -/
def insert_or_get_tiempos (lookupFails insertFails recoveryFails : Bool)
    (concurrent : List TiempoData) (db : TiempoDB) (tiempos_data : List TiempoData) :
    TiempoDB × Except DBError (TiempoKey → Option Nat) :=
  let s0 : TiempoSession := ⟨db, db⟩
  let tiempo_tuples := tiempos_data.map TiempoData.key
  match getExistingTiemposBatch lookupFails s0 tiempo_tuples with
  | (s1, tiempos_map) =>
    let dbc := commitConcurrentTiempos s1.committed concurrent
    let s2 : TiempoSession := ⟨dbc, dbc⟩
    let new_tiempos := tiempos_data.filter (fun t => (tiempos_map t.key).isNone)
    match insertNewTiemposBatch insertFails recoveryFails s2 new_tiempos with
    | .error e => (s2.committed, .error e)
    | .ok (s3, nuevos_ids) => (s3.current, .ok (unionMap tiempos_map nuevos_ids))

/-! ## The counterparty (Empresa) dimension — spec-modelled

`SimpleDataProcessor._process_retiros_batch` and `_process_contratos_batch`
call `self.repository.empresa_repo.insert_or_get_empresas(...)`, but no
`EmpresaRepository` exists under src/ and `DataRepository.__init__`
(repositories.py:194-198) wires only `barra_repo` and `tiempo_repo`.  Only the
callers and the `Empresa` entity (entities.py) are in the sources, so the
resolver itself is modelled from the spec. -/

/-- A row of the counterparty dimension: unique name plus classification tag
(entities.py `Empresa`: id_emp, nombre, tipo). -/
structure EmpresaRow where
  id_emp : Nat
  nombre : String
  tipo : String
deriving DecidableEq, Repr

structure EmpresaDB where
  rows : List EmpresaRow
  nextId : Nat
deriving DecidableEq, Repr

def findEmpresa : List EmpresaRow → String → Option Nat
  | [], _ => none
  | r :: rest, n => if r.nombre = n then some r.id_emp else findEmpresa rest n

def EmpresaWF (db : EmpresaDB) : Prop :=
  (db.rows.map (fun r => r.nombre)).Nodup ∧ 0 < db.nextId ∧
    ∀ r ∈ db.rows, 0 < r.id_emp

/-- Modelled from the spec: the insert loop of the missing
`EmpresaRepository.insert_or_get_empresas`.  Spec §4.3 step 3: insert each
missing value; on unique-constraint conflict fall back to re-querying that
value rather than erroring (here: the authoritative id is looked up and
returned); §3: classification tag defaults to "unclassified". -/
def insertEmpresasLoop (rows : List EmpresaRow) (nid : Nat)
    (acc : String → Option Nat) : List String → List EmpresaRow × Nat × (String → Option Nat)
  | [] => (rows, nid, acc)
  | n :: rest =>
    match findEmpresa rows n with
    | some v => insertEmpresasLoop rows nid (updMap acc n v) rest
    | none =>
      insertEmpresasLoop (rows ++ [⟨nid, n, "unclassified"⟩]) (nid + 1)
        (updMap acc n nid) rest

/-- Modelled from the spec: `EmpresaRepository.insert_or_get_empresas`, which
is absent from src/.  Spec §4.3 `resolve(names)`: query existing rows, compute
the complement, insert each missing value conflict-tolerantly, return the
union of existing and newly-inserted mappings. -/
def insert_or_get_empresas (db : EmpresaDB) (empresas_names : List String) :
    EmpresaDB × (String → Option Nat) :=
  let existing : String → Option Nat :=
    fun n => if n ∈ empresas_names then findEmpresa db.rows n else none
  let new_empresas := empresas_names.dedup.filter (fun n => (findEmpresa db.rows n).isNone)
  match insertEmpresasLoop db.rows db.nextId existing new_empresas with
  | (rows, nid, empresas_map) => (⟨rows, nid⟩, empresas_map)

/-! ## Fact tables — `DataRepository` bulk inserts -/

/-- A validated marginal-price row (data_loader.py `_validate_precios_data`):
FECHA, HORA, MINUTO, BARRA, CMg[mills/kWh], CMg[$/KWh], USD. -/
structure PrecioRow where
  FECHA : Date
  HORA : Int
  MINUTO : Int
  BARRA : String
  cmg_mills_kwh : Rat
  cmg_usd_kwh : Rat
  USD : Rat
deriving DecidableEq, Repr

/-- A row submitted to `costo_marginal` (repositories.py:284-287). -/
structure PrecioFact where
  tiempo_id : Nat
  barra_id : Nat
  cmg_mills_kwh : Rat
  cmg_usd_kwh : Rat
  usd : Rat
deriving DecidableEq, Repr

/-- `DataRepository.insert_precios_marginales` (repositories.py:280-302): one
INSERT per dict, commit, return `len(precios_data)` — the number of rows
submitted, by construction. -/
def insert_precios_marginales (fdb : List PrecioFact) (precios_data : List PrecioFact) :
    List PrecioFact × Nat :=
  (fdb ++ precios_data, precios_data.length)

/-- A validated withdrawal row (data_loader.py `_validate_retiros_data`):
Cuarto de Hora, Barra, Suministrador, Retiro, clave, Tipo, Medida_kWh and the
parsed date standardized under the name Clave Año_Mes. -/
structure RetiroRow where
  cuarto_de_hora : Int
  Barra : String
  Suministrador : String
  Retiro : String
  clave : String
  Tipo : String
  medida_kwh : Rat
  clave_anio_mes : Date
deriving DecidableEq, Repr

/-- A row submitted to `retiro_energia` with resolved surrogate keys
(data_processor.py:136-144). -/
structure RetiroFact where
  tiempo_id : Nat
  barra_id : Nat
  suministrador_id : Nat
  retiro_id : Nat
  clave : String
  tipo : String
  medida_kwh : Rat
deriving DecidableEq, Repr

/-- `DataRepository.insert_retiros_energia` (repositories.py:304-326).  The
INSERT (repositories.py:309-310) binds `:suministrador`, `:retiro` and
`:clave_anio_mes`, but the dicts `_process_retiros_batch` builds
(data_processor.py:136-144) carry `suministrador_id`/`retiro_id` and no
`clave_anio_mes`, so the first execute raises `StatementError` (a
`SQLAlchemyError`); the method rolls back and re-raises.  Every nonempty list
therefore errors with nothing committed; an empty list runs no statement,
commits and returns 0. -/
def insert_retiros_energia (fdb : List RetiroFact) :
    List RetiroFact → Except DBError (List RetiroFact × Nat)
  | [] => .ok (fdb, 0)
  | _ :: _ => .error .statementError

/-- A validated physical-contract row (data_loader.py
`_validate_contratos_data`): Cuarto de Hora, Barra, clave, Empresa,
Transacción, Kwhh, Valorizado_CLP, Id_Contrato, CMG_PESO_KWH.  Note there is
no date column. -/
structure ContratoRow where
  cuarto_de_hora : Int
  Barra : String
  clave : String
  Empresa : String
  transaccion : String
  kwhh : Rat
  valorizado_clp : Rat
  id_contrato : Int
  cmg_peso_kwh : Rat
deriving DecidableEq, Repr

/-- A row submitted to `contrato_fisico` (data_processor.py:207-217). -/
structure ContratoFact where
  tiempo_id : Nat
  barra_id : Nat
  clave : String
  empresa_id : Nat
  transaccion : String
  kwh : Rat
  valorizado_clp : Rat
  id_contrato : Int
  cmg_peso_kwh : Rat
deriving DecidableEq, Repr

/-- `DataRepository.insert_contratos_fisicos` (repositories.py:328-350).  The
INSERT (repositories.py:333-334) binds `:nom_empresa`, but the dicts
`_process_contratos_batch` builds (data_processor.py:207-217) carry
`empresa_id` instead, so the first execute raises `StatementError` (a
`SQLAlchemyError`); the method rolls back and re-raises.  Every nonempty list
therefore errors with nothing committed; an empty list runs no statement,
commits and returns 0. -/
def insert_contratos_fisicos (fdb : List ContratoFact) :
    List ContratoFact → Except DBError (List ContratoFact × Nat)
  | [] => .ok (fdb, 0)
  | _ :: _ => .error .statementError

/-! ## `SimpleDataProcessor` batch pipelines (data_processor.py) -/

/-- The tiempo dict built per price row (data_processor.py:44-49):
hour/minute given directly, `cuarto_hora` derived 0-indexed. -/
def precioTiempoData (r : PrecioRow) : TiempoData :=
  ⟨r.FECHA, r.HORA, r.MINUTO, r.HORA * 4 + r.MINUTO / 15, none⟩

def precioTiempoKey (r : PrecioRow) : TiempoKey :=
  ⟨r.FECHA, r.HORA, r.MINUTO⟩

/-- The filter-and-build step for one price row (data_processor.py:58-70):
`tiempo_id = tiempos_map.get(...)`, `barra_id = barras_map.get(...)`, keep the
row only `if tiempo_id and barra_id` — Python truthiness. -/
def precioRowBuild (tm : TiempoKey → Option Nat) (bm : String → Option Nat)
    (r : PrecioRow) : Option PrecioFact :=
  if truthy (tm (precioTiempoKey r)) && truthy (bm r.BARRA) then
    some ⟨(tm (precioTiempoKey r)).getD 0, (bm r.BARRA).getD 0,
      r.cmg_mills_kwh, r.cmg_usd_kwh, r.USD⟩
  else none

/-- `precios_to_insert` of a batch (data_processor.py:56-70). -/
def preciosToInsert (tm : TiempoKey → Option Nat) (bm : String → Option Nat)
    (batch : List PrecioRow) : List PrecioFact :=
  batch.filterMap (precioRowBuild tm bm)

/-- `SimpleDataProcessor._process_precios_batch` (data_processor.py:37-75),
run against a fault-free store with no interleaved writer. -/
def process_precios_batch (tdb : TiempoDB) (bdb : BarraDB) (fdb : List PrecioFact)
    (batch : List PrecioRow) :
    Except DBError (TiempoDB × BarraDB × List PrecioFact × Nat) :=
  let barras_unicas := (batch.map (fun r => r.BARRA)).dedup
  let tiempos_data := batch.map precioTiempoData
  match insert_or_get_barras [] bdb barras_unicas with
  | (_, .error e) => .error e
  | (bdb1, .ok barras_map) =>
    match insert_or_get_tiempos false false false [] tdb tiempos_data with
    | (_, .error e) => .error e
    | (tdb1, .ok tiempos_map) =>
      match preciosToInsert tiempos_map barras_map batch with
      | [] => .ok (tdb1, bdb1, fdb, 0)
      | p :: ps =>
        match insert_precios_marginales fdb (p :: ps) with
        | (fdb1, count) => .ok (tdb1, bdb1, fdb1, count)

/-- The tiempo dict built per withdrawal row (data_processor.py:109-115):
`Cuarto de Hora` is 1-indexed, so `hora = (q - 1) // 4` and
`minuto = ((q - 1) % 4) * 15`; the parsed date doubles as fecha. -/
def retiroTiempoData (r : RetiroRow) : TiempoData :=
  ⟨r.clave_anio_mes, (r.cuarto_de_hora - 1) / 4, ((r.cuarto_de_hora - 1) % 4) * 15,
    r.cuarto_de_hora, some (strftimeYM r.clave_anio_mes)⟩

/-- The tiempo key recomputed in the filter loop (data_processor.py:126-128). -/
def retiroTiempoKey (r : RetiroRow) : TiempoKey :=
  ⟨r.clave_anio_mes, (r.cuarto_de_hora - 1) / 4, ((r.cuarto_de_hora - 1) % 4) * 15⟩

/-- The filter-and-build step for one withdrawal row
(data_processor.py:125-144): both `Suministrador` and `Retiro` are resolved
through the empresa map; the row is kept only if
`all([tiempo_id, barra_id, suministrador_id, retiro_id])` — Python truthiness. -/
def retiroRowBuild (tm : TiempoKey → Option Nat) (bm em : String → Option Nat)
    (r : RetiroRow) : Option RetiroFact :=
  if truthy (tm (retiroTiempoKey r)) && truthy (bm r.Barra) &&
      truthy (em r.Suministrador) && truthy (em r.Retiro) then
    some ⟨(tm (retiroTiempoKey r)).getD 0, (bm r.Barra).getD 0,
      (em r.Suministrador).getD 0, (em r.Retiro).getD 0, r.clave, r.Tipo, r.medida_kwh⟩
  else none

def retirosToInsert (tm : TiempoKey → Option Nat) (bm em : String → Option Nat)
    (batch : List RetiroRow) : List RetiroFact :=
  batch.filterMap (retiroRowBuild tm bm em)

/-- `empresas_unicas` of a withdrawal batch (data_processor.py:104-105):
`set(Suministrador) | set(Retiro)`, determinized. -/
def empresasUnicasRetiros (batch : List RetiroRow) : List String :=
  (batch.map (fun r => r.Suministrador) ++ batch.map (fun r => r.Retiro)).dedup

/-- `SimpleDataProcessor._process_retiros_batch` (data_processor.py:100-149),
run against a fault-free store with no interleaved writer. -/
def process_retiros_batch (tdb : TiempoDB) (bdb : BarraDB) (edb : EmpresaDB)
    (fdb : List RetiroFact) (batch : List RetiroRow) :
    Except DBError (TiempoDB × BarraDB × EmpresaDB × List RetiroFact × Nat) :=
  let barras_unicas := (batch.map (fun r => r.Barra)).dedup
  let tiempos_data := batch.map retiroTiempoData
  match insert_or_get_barras [] bdb barras_unicas with
  | (_, .error e) => .error e
  | (bdb1, .ok barras_map) =>
    match insert_or_get_empresas edb (empresasUnicasRetiros batch) with
    | (edb1, empresas_map) =>
      match insert_or_get_tiempos false false false [] tdb tiempos_data with
      | (_, .error e) => .error e
      | (tdb1, .ok tiempos_map) =>
        match retirosToInsert tiempos_map barras_map empresas_map batch with
        | [] => .ok (tdb1, bdb1, edb1, fdb, 0)
        | p :: ps =>
          match insert_retiros_energia fdb (p :: ps) with
          | .error e => .error e
          | .ok (fdb1, count) => .ok (tdb1, bdb1, edb1, fdb1, count)

/-- The tiempo dict built per contract row (data_processor.py:181-187): the
fecha is `datetime.now().date()` — the run date, not anything from the row
(the validated contract row carries no date at all). -/
def contratoTiempoData (today : Date) (r : ContratoRow) : TiempoData :=
  ⟨today, (r.cuarto_de_hora - 1) / 4, ((r.cuarto_de_hora - 1) % 4) * 15,
    r.cuarto_de_hora, none⟩

/-- The tiempo key recomputed in the filter loop (data_processor.py:198-200),
again from `datetime.now().date()`. -/
def contratoTiempoKey (today : Date) (r : ContratoRow) : TiempoKey :=
  ⟨today, (r.cuarto_de_hora - 1) / 4, ((r.cuarto_de_hora - 1) % 4) * 15⟩

/-- The filter-and-build step for one contract row (data_processor.py:197-217). -/
def contratoRowBuild (today : Date) (tm : TiempoKey → Option Nat)
    (bm em : String → Option Nat) (r : ContratoRow) : Option ContratoFact :=
  if truthy (tm (contratoTiempoKey today r)) && truthy (bm r.Barra) &&
      truthy (em r.Empresa) then
    some ⟨(tm (contratoTiempoKey today r)).getD 0, (bm r.Barra).getD 0, r.clave,
      (em r.Empresa).getD 0, r.transaccion, r.kwhh, r.valorizado_clp,
      r.id_contrato, r.cmg_peso_kwh⟩
  else none

def contratosToInsert (today : Date) (tm : TiempoKey → Option Nat)
    (bm em : String → Option Nat) (batch : List ContratoRow) : List ContratoFact :=
  batch.filterMap (contratoRowBuild today tm bm em)

/-- `SimpleDataProcessor._process_contratos_batch` (data_processor.py:174-222).
`today` is the value of `datetime.now().date()` during the run, made an
explicit parameter of the embedding. -/
def process_contratos_batch (today : Date) (tdb : TiempoDB) (bdb : BarraDB)
    (edb : EmpresaDB) (fdb : List ContratoFact) (batch : List ContratoRow) :
    Except DBError (TiempoDB × BarraDB × EmpresaDB × List ContratoFact × Nat) :=
  let barras_unicas := (batch.map (fun r => r.Barra)).dedup
  let empresas_unicas := (batch.map (fun r => r.Empresa)).dedup
  let tiempos_data := batch.map (contratoTiempoData today)
  match insert_or_get_barras [] bdb barras_unicas with
  | (_, .error e) => .error e
  | (bdb1, .ok barras_map) =>
    match insert_or_get_empresas edb empresas_unicas with
    | (edb1, empresas_map) =>
      match insert_or_get_tiempos false false false [] tdb tiempos_data with
      | (_, .error e) => .error e
      | (tdb1, .ok tiempos_map) =>
        match contratosToInsert today tiempos_map barras_map empresas_map batch with
        | [] => .ok (tdb1, bdb1, edb1, fdb, 0)
        | p :: ps =>
          match insert_contratos_fisicos fdb (p :: ps) with
          | .error e => .error e
          | .ok (fdb1, count) => .ok (tdb1, bdb1, edb1, fdb1, count)

/-! ## Record loader — `SimpleDataLoader.load_csv` (data_loader.py:30-73) -/

/-- Load-time failures. -/
inductive LoadErr where
  | undecodable
deriving DecidableEq, Repr

/-- The encoding loop (data_loader.py:40-67): each attempted encoding either
raises `UnicodeDecodeError` (`none`, loop continues) or decodes the file into
its parsed rows (`some rows`, returned at once).  The attempt list stands for
`[encoding, 'latin-1', 'utf-8-sig', 'iso-8859-1']` in order. -/
def tryEncodings {α : Type} : List (Option (List α)) → Option (List α)
  | [] => none
  | some rows :: _ => some rows
  | none :: rest => tryEncodings rest

/-- The body of the outer `try` in `load_csv` (data_loader.py:32-69): when no
encoding succeeds it raises
`ValueError("No se pudo decodificar el archivo ...")`. -/
def load_csv_inner {α : Type} (attempts : List (Option (List α))) :
    Except LoadErr (List α) :=
  match tryEncodings attempts with
  | some rows => .ok rows
  | none => .error .undecodable

/-- `SimpleDataLoader.load_csv` as a whole (data_loader.py:30-73): the outer
`except Exception` catches every failure — including the `ValueError` the
method itself just raised — logs it and returns `[]` (data_loader.py:71-73). -/
def load_csv {α : Type} (attempts : List (Option (List α))) : List α :=
  match load_csv_inner attempts with
  | .ok rows => rows
  | .error _ => []

/-- The loader as the spec words it (spec §4.1, §7 LoadError): tries the
encodings in order and fails with a `LoadError` that is fatal for the dataset
if none succeed.  Stated only to exhibit the divergence from `load_csv`. -/
def loadFileAsSpecified {α : Type} (attempts : List (Option (List α))) :
    Except LoadErr (List α) :=
  match tryEncodings attempts with
  | some rows => .ok rows
  | none => .error .undecodable

/-! ## Date parsing — `SimpleDataLoader._parse_date` (data_loader.py:127-184)

The model works on `List Char` and mirrors `datetime.strptime` for exactly
the formats the source tries.  For these formats CPython's strptime regexes
force fixed component widths on all-digit compact strings (%y and %m/%d must
consume 2+2+2 of 6 digits, %Y%m%d must consume 4+2+2 of 8) and 1-2 digit
day/month, 4-digit %Y, 2-digit %y between delimiters, which is what is
implemented here. -/

def lowerChar (c : Char) : Char :=
  if 'A' ≤ c ∧ c ≤ 'Z' then Char.ofNat (c.toNat + 32) else c

def isSpaceChar (c : Char) : Bool :=
  c = ' ' || c = '\t' || c = '\n' || c = '\r'

/-- Python `str.strip()`. -/
def trimChars (cs : List Char) : List Char :=
  ((cs.dropWhile isSpaceChar).reverse.dropWhile isSpaceChar).reverse

/-- Python `str.isdigit()`: nonempty and all digits. -/
def isDigitStr (cs : List Char) : Bool :=
  !cs.isEmpty && cs.all Char.isDigit

def digitsToNat (cs : List Char) : Nat :=
  cs.foldl (fun a c => a * 10 + (c.toNat - 48)) 0

/-- The `%y` two-digit-year pivot: 00-68 map to 20xx, 69-99 to 19xx. -/
def pivotY2 (yy : Nat) : Nat :=
  if yy ≤ 68 then 2000 + yy else 1900 + yy

/-- `datetime.strptime(s, '%y%m%d')` on a compact string. -/
def strptimeYYMMDD (cs : List Char) : Option Date :=
  if cs.length = 6 ∧ cs.all Char.isDigit then
    mkValidDate (pivotY2 (digitsToNat (cs.take 2))) (digitsToNat ((cs.drop 2).take 2))
      (digitsToNat (cs.drop 4))
  else none

/-- `datetime.strptime(s, '%Y%m%d')` on a compact string. -/
def strptimeYYYYMMDD (cs : List Char) : Option Date :=
  if cs.length = 8 ∧ cs.all Char.isDigit then
    mkValidDate (digitsToNat (cs.take 4)) (digitsToNat ((cs.drop 4).take 2))
      (digitsToNat (cs.drop 6))
  else none

/-- Split on a delimiter character (Python-style, keeping empty segments). -/
def splitChars (sep : Char) : List Char → List (List Char)
  | [] => [[]]
  | c :: rest =>
    match splitChars sep rest with
    | [] => [[]]
    | g :: gs => if c = sep then [] :: g :: gs else (c :: g) :: gs

/-- A 1-2 digit day or month field. -/
def numField12 (cs : List Char) : Option Nat :=
  if (cs.length = 1 ∨ cs.length = 2) ∧ cs.all Char.isDigit then
    some (digitsToNat cs)
  else none

/-- A 4-digit `%Y` field. -/
def numField4 (cs : List Char) : Option Nat :=
  if cs.length = 4 ∧ cs.all Char.isDigit then some (digitsToNat cs) else none

/-- A 2-digit `%y` field, pivoted. -/
def numFieldY2 (cs : List Char) : Option Nat :=
  if cs.length = 2 ∧ cs.all Char.isDigit then some (pivotY2 (digitsToNat cs)) else none

/-- `strptime` with a `'%d<sep>%m<sep>%Y'` format (day first). -/
def fmtDMY (sep : Char) (cs : List Char) : Option Date :=
  match splitChars sep cs with
  | [d, m, y] =>
    match numField12 d, numField12 m, numField4 y with
    | some dd, some mm, some yy => mkValidDate yy mm dd
    | _, _, _ => none
  | _ => none

/-- `strptime` with a `'%m<sep>%d<sep>%Y'` format (month first). -/
def fmtMDY (sep : Char) (cs : List Char) : Option Date :=
  match splitChars sep cs with
  | [m, d, y] =>
    match numField12 m, numField12 d, numField4 y with
    | some mm, some dd, some yy => mkValidDate yy mm dd
    | _, _, _ => none
  | _ => none

/-- `strptime` with a `'%d<sep>%m<sep>%y'` format (day first, 2-digit year). -/
def fmtDMy (sep : Char) (cs : List Char) : Option Date :=
  match splitChars sep cs with
  | [d, m, y] =>
    match numField12 d, numField12 m, numFieldY2 y with
    | some dd, some mm, some yy => mkValidDate yy mm dd
    | _, _, _ => none
  | _ => none

/-- `strptime` with a `'%m<sep>%d<sep>%y'` format (month first, 2-digit year). -/
def fmtMDy (sep : Char) (cs : List Char) : Option Date :=
  match splitChars sep cs with
  | [m, d, y] =>
    match numField12 m, numField12 d, numFieldY2 y with
    | some mm, some dd, some yy => mkValidDate yy mm dd
    | _, _, _ => none
  | _ => none

/-- `strptime` with a `'%Y<sep>%m<sep>%d'` format. -/
def fmtYMD (sep : Char) (cs : List Char) : Option Date :=
  match splitChars sep cs with
  | [y, m, d] =>
    match numField4 y, numField12 m, numField12 d with
    | some yy, some mm, some dd => mkValidDate yy mm dd
    | _, _, _ => none
  | _ => none

/-- The `date_formats` loop (data_loader.py:164-181): the fixed list, tried in
order, first success wins; `'%d/%m/%Y'` (day first) precedes `'%m/%d/%Y'`. -/
def tryDelimitedFormats (cs : List Char) : Option Date :=
  (strptimeYYYYMMDD cs).orElse fun _ =>
  (fmtYMD '-' cs).orElse fun _ =>
  (fmtDMY '/' cs).orElse fun _ =>
  (fmtMDY '/' cs).orElse fun _ =>
  (fmtDMY '-' cs).orElse fun _ =>
  (fmtYMD '/' cs).orElse fun _ =>
  (fmtDMy '/' cs).orElse fun _ =>
  (fmtMDy '/' cs).orElse fun _ =>
  (fmtDMY '.' cs).orElse fun _ =>
  fmtDMy '.' cs

/-- `SimpleDataLoader._parse_date` (data_loader.py:127-184) on the characters
of the input: null-ish strings are rejected, then all-digit strings dispatch
on their length (4 ⇒ `%y%m%d` with day 01 appended; 6 ⇒ `%y%m%d`, then
`%Y%m%d` with day 01 appended; 8 ⇒ `%Y%m%d`), and whatever remains falls
through to the delimited-format list. -/
def parseDateChars (cs : List Char) : Option Date :=
  if cs = [] ∨ (cs.map lowerChar) = "nan".toList ∨ (cs.map lowerChar) = "nat".toList ∨
      (cs.map lowerChar) = "none".toList then
    none
  else
    let t := trimChars cs
    if isDigitStr t then
      if t.length = 4 then
        (strptimeYYMMDD (t ++ ['0', '1'])).orElse fun _ => tryDelimitedFormats t
      else if t.length = 6 then
        ((strptimeYYMMDD t).orElse fun _ =>
          strptimeYYYYMMDD (t ++ ['0', '1'])).orElse fun _ => tryDelimitedFormats t
      else if t.length = 8 then
        (strptimeYYYYMMDD t).orElse fun _ => tryDelimitedFormats t
      else tryDelimitedFormats t
    else tryDelimitedFormats t

/-- `_parse_date` on a string input. -/
def parse_date (s : String) : Option Date :=
  parseDateChars s.toList

/-! ## Result observers (used to state concrete observations) -/

/-- Whether a resolver call returned normally. -/
def isOkResolve : Except DBError (TiempoKey → Option Nat) → Bool
  | .ok _ => true
  | .error _ => false

/-- The mapping a resolver call returned (`none` on every key if it errored). -/
def lookupResolve : Except DBError (TiempoKey → Option Nat) → TiempoKey → Option Nat
  | .ok m, k => m k
  | .error _, _ => none

/-- The mapping a location-resolver call returned (`none` on every name if it
errored). -/
def lookupBarrasResolve : Except DBError (String → Option Nat) → String → Option Nat
  | .ok m, n => m n
  | .error _, _ => none

/-- The contract fact rows a contract-batch run left in the fact table. -/
def contratoFactsOf :
    Except DBError (TiempoDB × BarraDB × EmpresaDB × List ContratoFact × Nat) →
      List ContratoFact
  | .ok (_, _, _, fdb, _) => fdb
  | .error _ => []

/-! ## Generic list and lookup lemmas -/

theorem nodup_append_singleton {α : Type} (l : List α) (a : α)
    (h1 : l.Nodup) (h2 : a ∉ l) : (l ++ [a]).Nodup := by
  simp [List.nodup_append, h1, h2]

/-! ### findBarra -/

theorem findBarra_append_some (rows more : List BarraRow) (n : String) (v : Nat)
    (h : findBarra rows n = some v) : findBarra (rows ++ more) n = some v := by
  induction rows with
  | nil => simp [findBarra] at h
  | cons r rest ih =>
    by_cases hr : r.nombre = n
    · simpa [findBarra, hr] using by simpa [findBarra, hr] using h
    · simp [findBarra, hr] at h ⊢
      exact ih h

theorem findBarra_append_none (rows more : List BarraRow) (n : String)
    (h : findBarra rows n = none) : findBarra (rows ++ more) n = findBarra more n := by
  induction rows with
  | nil => simp [findBarra]
  | cons r rest ih =>
    by_cases hr : r.nombre = n
    · simp [findBarra, hr] at h
    · simp [findBarra, hr] at h ⊢
      exact ih h

theorem findBarra_none_iff (rows : List BarraRow) (n : String) :
    findBarra rows n = none ↔ n ∉ rows.map (fun r => r.nombre) := by
  induction rows with
  | nil => simp [findBarra]
  | cons r rest ih =>
    by_cases hr : r.nombre = n
    · simp [findBarra, hr]
    · simp [findBarra, hr, ih, Ne.symm hr]

theorem findBarra_pos (rows : List BarraRow) (n : String) (v : Nat)
    (hids : ∀ r ∈ rows, 0 < r.id_barra) (h : findBarra rows n = some v) : 0 < v := by
  induction rows with
  | nil => simp [findBarra] at h
  | cons r rest ih =>
    by_cases hr : r.nombre = n
    · simp [findBarra, hr] at h
      exact h ▸ hids r (by simp)
    · simp [findBarra, hr] at h
      exact ih (fun x hx => hids x (by simp [hx])) h

theorem countBarra_cons_hit (r : BarraRow) (rest : List BarraRow) (n : String)
    (hr : r.nombre = n) : countBarra (r :: rest) n = countBarra rest n + 1 := by
  simp [countBarra, List.filter_cons, hr]

theorem countBarra_cons_miss (r : BarraRow) (rest : List BarraRow) (n : String)
    (hr : ¬ r.nombre = n) : countBarra (r :: rest) n = countBarra rest n := by
  simp [countBarra, List.filter_cons, hr]

theorem countBarra_le_one (rows : List BarraRow) (n : String)
    (h : (rows.map (fun r => r.nombre)).Nodup) : countBarra rows n ≤ 1 := by
  induction rows with
  | nil => simp [countBarra]
  | cons r rest ih =>
    simp only [List.map_cons, List.nodup_cons] at h
    by_cases hr : r.nombre = n
    · have hzero : countBarra rest n = 0 := by
        simp only [countBarra, List.length_eq_zero, List.filter_eq_nil_iff]
        intro x hx
        simp only [decide_eq_true_eq]
        intro hxn
        refine h.1 ?_
        rw [hr, ← hxn]
        exact List.mem_map_of_mem (fun r => r.nombre) hx
      rw [countBarra_cons_hit r rest n hr, hzero]
    · rw [countBarra_cons_miss r rest n hr]
      exact ih h.2

theorem countBarra_pos (rows : List BarraRow) (n : String) (v : Nat)
    (h : findBarra rows n = some v) : 1 ≤ countBarra rows n := by
  induction rows with
  | nil => simp [findBarra] at h
  | cons r rest ih =>
    by_cases hr : r.nombre = n
    · rw [countBarra_cons_hit r rest n hr]
      omega
    · simp [findBarra, hr] at h
      rw [countBarra_cons_miss r rest n hr]
      exact ih h

theorem countBarra_eq_one (rows : List BarraRow) (n : String) (v : Nat)
    (hnd : (rows.map (fun r => r.nombre)).Nodup) (h : findBarra rows n = some v) :
    countBarra rows n = 1 :=
  Nat.le_antisymm (countBarra_le_one rows n hnd) (countBarra_pos rows n v h)

/-! ### commitConcurrentBarras -/

theorem commitConcurrentBarras_mono (cs : List String) :
    ∀ (db : BarraDB) (n : String) (v : Nat), findBarra db.rows n = some v →
      findBarra (commitConcurrentBarras db cs).rows n = some v := by
  induction cs with
  | nil => intro db n v h; simpa [commitConcurrentBarras] using h
  | cons c rest ih =>
    intro db n v h
    by_cases hc : (findBarra db.rows c).isSome
    · simpa [commitConcurrentBarras, hc] using ih db n v h
    · simp only [commitConcurrentBarras, hc, if_false]
      exact ih _ n v (findBarra_append_some db.rows _ n v h)

theorem commitConcurrentBarras_mem (cs : List String) :
    ∀ (db : BarraDB) (n : String), n ∈ cs →
      (findBarra (commitConcurrentBarras db cs).rows n).isSome := by
  induction cs with
  | nil => intro db n h; simp at h
  | cons c rest ih =>
    intro db n h
    by_cases hc : (findBarra db.rows c).isSome
    · simp only [commitConcurrentBarras, hc, if_true]
      rcases List.mem_cons.mp h with h | h
      · obtain ⟨v, hv⟩ := Option.isSome_iff_exists.mp (h ▸ hc)
        exact Option.isSome_iff_exists.mpr ⟨v, commitConcurrentBarras_mono rest db n v hv⟩
      · exact ih db n h
    · simp only [commitConcurrentBarras, hc, if_false]
      rcases List.mem_cons.mp h with h | h
      · have hcnone : findBarra db.rows c = none := Option.not_isSome_iff_eq_none.mp hc
        have hv : findBarra (db.rows ++ [⟨db.nextId, c⟩]) n = some db.nextId := by
          rw [h, findBarra_append_none db.rows _ c hcnone]
          simp [findBarra]
        exact Option.isSome_iff_exists.mpr
          ⟨db.nextId, commitConcurrentBarras_mono rest _ n db.nextId hv⟩
      · exact ih _ n h

theorem commitConcurrentBarras_WF (cs : List String) :
    ∀ (db : BarraDB), BarraWF db → BarraWF (commitConcurrentBarras db cs) := by
  induction cs with
  | nil => intro db h; simpa [commitConcurrentBarras] using h
  | cons c rest ih =>
    intro db h
    by_cases hc : (findBarra db.rows c).isSome
    · simpa [commitConcurrentBarras, hc] using ih db h
    · simp only [commitConcurrentBarras, hc, if_false]
      refine ih _ ⟨?_, ?_, ?_⟩
      · have hcnone : findBarra db.rows c = none := Option.not_isSome_iff_eq_none.mp hc
        have : c ∉ db.rows.map (fun r => r.nombre) := (findBarra_none_iff db.rows c).mp hcnone
        simpa [List.map_append] using
          nodup_append_singleton (db.rows.map (fun r => r.nombre)) c h.1 this
      · exact Nat.succ_pos _
      · intro r hr
        rcases List.mem_append.mp hr with hr | hr
        · exact h.2.2 r hr
        · simp at hr
          subst hr
          exact h.2.1

/-! ### insertBarrasLoop -/

theorem insertBarrasLoop_spec (ns : List String) :
    ∀ (rows : List BarraRow) (nid : Nat) (acc : String → Option Nat),
    ns.Nodup →
    (∀ n ∈ ns, findBarra rows n = none) →
    (rows.map (fun r => r.nombre)).Nodup →
    0 < nid →
    (∀ r ∈ rows, 0 < r.id_barra) →
    (∀ n v, acc n = some v → findBarra rows n = some v) →
    ∃ rows' nid' acc',
      insertBarrasLoop rows nid acc ns = .ok (rows', nid', acc') ∧
      (∀ n v, findBarra rows n = some v → findBarra rows' n = some v) ∧
      (∀ n, n ∉ ns → acc' n = acc n) ∧
      (∀ n ∈ ns, (findBarra rows' n).isSome ∧ acc' n = findBarra rows' n) ∧
      (∀ n v, acc' n = some v → findBarra rows' n = some v) ∧
      (rows'.map (fun r => r.nombre)).Nodup ∧
      0 < nid' ∧
      (∀ r ∈ rows', 0 < r.id_barra) := by
  induction ns with
  | nil =>
    intro rows nid acc _ _ hnd hpos hids hacc
    exact ⟨rows, nid, acc, rfl, fun n v h => h, fun n _ => rfl, by simp, hacc, hnd, hpos, hids⟩
  | cons n rest ih =>
    intro rows nid acc hnodup habs hnd hpos hids hacc
    have hn : findBarra rows n = none := habs n (by simp)
    have hnotsome : ¬ (findBarra rows n).isSome := by simp [hn]
    have hnrest : n ∉ rest := (List.nodup_cons.mp hnodup).1
    have hrest_nodup : rest.Nodup := (List.nodup_cons.mp hnodup).2
    have hnewrow : findBarra (rows ++ [⟨nid, n⟩]) n = some nid := by
      rw [findBarra_append_none rows _ n hn]
      simp [findBarra]
    have habs1 : ∀ x ∈ rest, findBarra (rows ++ [⟨nid, n⟩]) x = none := by
      intro x hx
      have hxn : ¬ n = x := fun h => hnrest (h ▸ hx)
      rw [findBarra_append_none rows _ x (habs x (by simp [hx]))]
      simp [findBarra, hxn]
    have hnd1 : ((rows ++ [(⟨nid, n⟩ : BarraRow)]).map (fun r => r.nombre)).Nodup := by
      have : n ∉ rows.map (fun r => r.nombre) := (findBarra_none_iff rows n).mp hn
      simpa [List.map_append] using
        nodup_append_singleton (rows.map (fun r => r.nombre)) n hnd this
    have hids1 : ∀ r ∈ rows ++ [⟨nid, n⟩], 0 < r.id_barra := by
      intro r hr
      rcases List.mem_append.mp hr with hr | hr
      · exact hids r hr
      · simp at hr
        subst hr
        exact hpos
    have hacc1 : ∀ x v, updMap acc n nid x = some v → findBarra (rows ++ [⟨nid, n⟩]) x = some v := by
      intro x v hx
      by_cases hxeq : x = n
      · subst hxeq
        simp [updMap] at hx
        exact hx ▸ hnewrow
      · simp [updMap, hxeq] at hx
        exact findBarra_append_some rows _ x v (hacc x v hx)
    obtain ⟨rows', nid', acc', heq, hmono, hframe, hcover, haccinv, hnd', hpos', hids'⟩ :=
      ih (rows ++ [⟨nid, n⟩]) (nid + 1) (updMap acc n nid) hrest_nodup habs1 hnd1
        (Nat.succ_pos nid) hids1 hacc1
    refine ⟨rows', nid', acc', ?_, ?_, ?_, ?_, haccinv, hnd', hpos', hids'⟩
    · simpa [insertBarrasLoop, hnotsome] using heq
    · intro x v hx
      exact hmono x v (findBarra_append_some rows _ x v hx)
    · intro x hx
      have hxn : ¬ x = n := fun h => hx (h ▸ List.mem_cons_self n rest)
      have hxrest : x ∉ rest := fun h => hx (List.mem_cons_of_mem n h)
      rw [hframe x hxrest]
      simp [updMap, hxn]
    · intro x hx
      rcases List.mem_cons.mp hx with hx | hx
      · subst hx
        have haccx : acc' x = some nid := by
          rw [hframe x hnrest]
          simp [updMap]
        have hfind : findBarra rows' x = some nid := haccinv x nid haccx
        exact ⟨by simp [hfind], haccx.trans hfind.symm⟩
      · exact hcover x hx

theorem insertBarrasLoop_conflict (ns : List String) :
    ∀ (rows : List BarraRow) (nid : Nat) (acc : String → Option Nat),
    (∃ n ∈ ns, (findBarra rows n).isSome) →
    insertBarrasLoop rows nid acc ns = .error .uniqueViolation := by
  induction ns with
  | nil => intro rows nid acc h; simp at h
  | cons n rest ih =>
    intro rows nid acc h
    by_cases hn : (findBarra rows n).isSome
    · simp [insertBarrasLoop, hn]
    · obtain ⟨n0, hn0mem, hn0⟩ := h
      rcases List.mem_cons.mp hn0mem with hx | hx
      · exact absurd (hx ▸ hn0) hn
      · have hn0' : (findBarra (rows ++ [⟨nid, n⟩]) n0).isSome := by
          obtain ⟨v, hv⟩ := Option.isSome_iff_exists.mp hn0
          simp [findBarra_append_some rows _ n0 v hv]
        simpa [insertBarrasLoop, hn] using ih _ (nid + 1) (updMap acc n nid) ⟨n0, hx, hn0'⟩

/-! ### insert_or_get_barras: characterization on the race-free path -/

theorem insert_or_get_barras_spec (db : BarraDB) (names : List String) (h : BarraWF db) :
    ∃ db' m,
      insert_or_get_barras [] db names = (db', .ok m) ∧
      BarraWF db' ∧
      (∀ n v, findBarra db.rows n = some v → findBarra db'.rows n = some v) ∧
      (∀ n v, m n = some v → findBarra db'.rows n = some v) ∧
      (∀ n ∈ names, (findBarra db'.rows n).isSome ∧ m n = findBarra db'.rows n) ∧
      ((∀ n ∈ names, (findBarra db.rows n).isSome) → db' = db) := by
  obtain ⟨hnd, hpos, hids⟩ := h
  have hccb : commitConcurrentBarras db [] = db := rfl
  have hnodup : (names.dedup.filter (fun n => (findBarra db.rows n).isNone)).Nodup :=
    List.Nodup.filter _ (List.nodup_dedup names)
  have habs : ∀ n ∈ names.dedup.filter (fun n => (findBarra db.rows n).isNone),
      findBarra db.rows n = none := by
    intro n hn
    exact Option.isNone_iff_eq_none.mp (List.mem_filter.mp hn).2
  have hacc : ∀ n v, (fun n => if n ∈ names then findBarra db.rows n else none) n = some v →
      findBarra db.rows n = some v := by
    intro n v hn
    by_cases hmem : n ∈ names
    · simpa [hmem] using hn
    · simp [hmem] at hn
  obtain ⟨rows', nid', acc', heq, hmono, hframe, hcover, haccinv, hnd', hpos', hids'⟩ :=
    insertBarrasLoop_spec (names.dedup.filter (fun n => (findBarra db.rows n).isNone))
      db.rows db.nextId (fun n => if n ∈ names then findBarra db.rows n else none)
      hnodup habs hnd hpos hids hacc
  refine ⟨⟨rows', nid'⟩, acc', ?_, ⟨hnd', hpos', hids'⟩, hmono, haccinv, ?_, ?_⟩
  · simp only [insert_or_get_barras, hccb, heq]
  · intro n hn
    by_cases hnew : n ∈ names.dedup.filter (fun n => (findBarra db.rows n).isNone)
    · exact hcover n hnew
    · have hmemdedup : n ∈ names.dedup := List.mem_dedup.mpr hn
      have hsome : (findBarra db.rows n).isSome := by
        by_contra hns
        exact hnew (List.mem_filter.mpr ⟨hmemdedup, by simp [Option.not_isSome_iff_eq_none.mp hns]⟩)
      obtain ⟨v, hv⟩ := Option.isSome_iff_exists.mp hsome
      have hv' : findBarra rows' n = some v := hmono n v hv
      refine ⟨by simp [hv'], ?_⟩
      rw [hframe n hnew, hv']
      simp [hn, hv]
  · intro hall
    have hnil : names.dedup.filter (fun n => (findBarra db.rows n).isNone) = [] := by
      refine List.filter_eq_nil_iff.mpr ?_
      intro n hn
      have hs := hall n (List.mem_dedup.mp hn)
      simp only [Option.isNone_iff_eq_none, decide_eq_true_eq]
      intro hnone
      rw [hnone] at hs
      simp at hs
    rw [hnil] at heq
    simp only [insertBarrasLoop, Except.ok.injEq, Prod.mk.injEq] at heq
    obtain ⟨h1, h2, _⟩ := heq
    rw [← h1, ← h2]

theorem insert_or_get_barras_conflict (db : BarraDB) (names concurrent : List String)
    (n0 : String) (h1 : n0 ∈ names) (h2 : findBarra db.rows n0 = none)
    (h3 : n0 ∈ concurrent) :
    (insert_or_get_barras concurrent db names).2 = .error .uniqueViolation := by
  have hmem : n0 ∈ names.dedup.filter (fun n => (findBarra db.rows n).isNone) :=
    List.mem_filter.mpr ⟨List.mem_dedup.mpr h1, by simp [h2]⟩
  have hpresent : (findBarra (commitConcurrentBarras db concurrent).rows n0).isSome :=
    commitConcurrentBarras_mem concurrent db n0 h3
  have herr := insertBarrasLoop_conflict
    (names.dedup.filter (fun n => (findBarra db.rows n).isNone))
    (commitConcurrentBarras db concurrent).rows
    (commitConcurrentBarras db concurrent).nextId
    (fun n => if n ∈ names then findBarra db.rows n else none)
    ⟨n0, hmem, hpresent⟩
  simp only [insert_or_get_barras, herr]

/-! ### findTiempo -/

theorem findTiempo_append_some (rows more : List TiempoRow) (k : TiempoKey) (v : Nat)
    (h : findTiempo rows k = some v) : findTiempo (rows ++ more) k = some v := by
  induction rows with
  | nil => simp [findTiempo] at h
  | cons r rest ih =>
    by_cases hr : r.key = k
    · simpa [findTiempo, hr] using by simpa [findTiempo, hr] using h
    · simp [findTiempo, hr] at h ⊢
      exact ih h

theorem findTiempo_append_none (rows more : List TiempoRow) (k : TiempoKey)
    (h : findTiempo rows k = none) : findTiempo (rows ++ more) k = findTiempo more k := by
  induction rows with
  | nil => simp [findTiempo]
  | cons r rest ih =>
    by_cases hr : r.key = k
    · simp [findTiempo, hr] at h
    · simp [findTiempo, hr] at h ⊢
      exact ih h

theorem findTiempo_none_iff (rows : List TiempoRow) (k : TiempoKey) :
    findTiempo rows k = none ↔ k ∉ rows.map TiempoRow.key := by
  induction rows with
  | nil => simp [findTiempo]
  | cons r rest ih =>
    by_cases hr : r.key = k
    · simp [findTiempo, hr]
    · simp [findTiempo, hr, ih, Ne.symm hr]

theorem findTiempo_pos (rows : List TiempoRow) (k : TiempoKey) (v : Nat)
    (hids : ∀ r ∈ rows, 0 < r.id_tiempo) (h : findTiempo rows k = some v) : 0 < v := by
  induction rows with
  | nil => simp [findTiempo] at h
  | cons r rest ih =>
    by_cases hr : r.key = k
    · simp [findTiempo, hr] at h
      exact h ▸ hids r (by simp)
    · simp [findTiempo, hr] at h
      exact ih (fun x hx => hids x (by simp [hx])) h

theorem countTiempo_cons_hit (r : TiempoRow) (rest : List TiempoRow) (k : TiempoKey)
    (hr : r.key = k) : countTiempo (r :: rest) k = countTiempo rest k + 1 := by
  simp [countTiempo, List.filter_cons, hr]

theorem countTiempo_cons_miss (r : TiempoRow) (rest : List TiempoRow) (k : TiempoKey)
    (hr : ¬ r.key = k) : countTiempo (r :: rest) k = countTiempo rest k := by
  simp [countTiempo, List.filter_cons, hr]

theorem countTiempo_le_one (rows : List TiempoRow) (k : TiempoKey)
    (h : (rows.map TiempoRow.key).Nodup) : countTiempo rows k ≤ 1 := by
  induction rows with
  | nil => simp [countTiempo]
  | cons r rest ih =>
    simp only [List.map_cons, List.nodup_cons] at h
    by_cases hr : r.key = k
    · have hzero : countTiempo rest k = 0 := by
        simp only [countTiempo, List.length_eq_zero, List.filter_eq_nil_iff]
        intro x hx
        simp only [decide_eq_true_eq]
        intro hxk
        refine h.1 ?_
        rw [hr, ← hxk]
        exact List.mem_map_of_mem TiempoRow.key hx
      rw [countTiempo_cons_hit r rest k hr, hzero]
    · rw [countTiempo_cons_miss r rest k hr]
      exact ih h.2

theorem countTiempo_pos (rows : List TiempoRow) (k : TiempoKey) (v : Nat)
    (h : findTiempo rows k = some v) : 1 ≤ countTiempo rows k := by
  induction rows with
  | nil => simp [findTiempo] at h
  | cons r rest ih =>
    by_cases hr : r.key = k
    · rw [countTiempo_cons_hit r rest k hr]
      omega
    · simp [findTiempo, hr] at h
      rw [countTiempo_cons_miss r rest k hr]
      exact ih h

theorem countTiempo_eq_one (rows : List TiempoRow) (k : TiempoKey) (v : Nat)
    (hnd : (rows.map TiempoRow.key).Nodup) (h : findTiempo rows k = some v) :
    countTiempo rows k = 1 :=
  Nat.le_antisymm (countTiempo_le_one rows k hnd) (countTiempo_pos rows k v h)

/-! ### commitConcurrentTiempos -/

theorem commitConcurrentTiempos_mono (cs : List TiempoData) :
    ∀ (db : TiempoDB) (k : TiempoKey) (v : Nat), findTiempo db.rows k = some v →
      findTiempo (commitConcurrentTiempos db cs).rows k = some v := by
  induction cs with
  | nil => intro db k v h; simpa [commitConcurrentTiempos] using h
  | cons c rest ih =>
    intro db k v h
    by_cases hc : (findTiempo db.rows c.key).isSome
    · simpa [commitConcurrentTiempos, hc] using ih db k v h
    · simp only [commitConcurrentTiempos, hc, if_false]
      exact ih _ k v (findTiempo_append_some db.rows _ k v h)

theorem commitConcurrentTiempos_WF (cs : List TiempoData) :
    ∀ (db : TiempoDB), TiempoWF db → TiempoWF (commitConcurrentTiempos db cs) := by
  induction cs with
  | nil => intro db h; simpa [commitConcurrentTiempos] using h
  | cons c rest ih =>
    intro db h
    by_cases hc : (findTiempo db.rows c.key).isSome
    · simpa [commitConcurrentTiempos, hc] using ih db h
    · simp only [commitConcurrentTiempos, hc, if_false]
      refine ih _ ?_
      obtain ⟨hnd, hpos, hids⟩ := h
      refine ⟨?_, Nat.succ_pos _, ?_⟩
      · have hcnone : findTiempo db.rows c.key = none := Option.not_isSome_iff_eq_none.mp hc
        have hnotin : c.key ∉ db.rows.map TiempoRow.key := (findTiempo_none_iff db.rows c.key).mp hcnone
        have hkeyeq : (⟨db.nextId, c.fecha, c.hora, c.minuto, c.cuarto_hora, claveOf c⟩ :
            TiempoRow).key = c.key := rfl
        simpa [List.map_append, hkeyeq] using
          nodup_append_singleton (db.rows.map TiempoRow.key) c.key hnd hnotin
      · intro r hr
        rcases List.mem_append.mp hr with hr | hr
        · exact hids r hr
        · simp at hr
          subst hr
          exact hpos

/-! ### insertTiemposLoop -/

theorem insertTiemposLoop_spec (ts : List TiempoData) :
    ∀ (rows : List TiempoRow) (nid : Nat) (acc : TiempoKey → Option Nat),
    (rows.map TiempoRow.key).Nodup →
    0 < nid →
    (∀ r ∈ rows, 0 < r.id_tiempo) →
    (∀ k v, acc k = some v → findTiempo rows k = some v) →
    ∃ rows' nid' acc',
      insertTiemposLoop rows nid acc ts = (rows', nid', acc') ∧
      (∀ k v, findTiempo rows k = some v → findTiempo rows' k = some v) ∧
      (∀ t ∈ ts, (findTiempo rows' t.key).isSome) ∧
      (∀ k v, acc' k = some v → findTiempo rows' k = some v) ∧
      ((rows'.map TiempoRow.key).Nodup ∧ 0 < nid' ∧ ∀ r ∈ rows', 0 < r.id_tiempo) ∧
      ((∀ t ∈ ts, (findTiempo rows t.key).isSome) → rows' = rows ∧ nid' = nid ∧ acc' = acc) := by
  induction ts with
  | nil =>
    intro rows nid acc hnd hpos hids hacc
    exact ⟨rows, nid, acc, rfl, fun k v h => h, by simp, hacc, ⟨hnd, hpos, hids⟩,
      fun _ => ⟨rfl, rfl, rfl⟩⟩
  | cons t rest ih =>
    intro rows nid acc hnd hpos hids hacc
    by_cases ht : (findTiempo rows t.key).isSome
    · obtain ⟨rows', nid', acc', heq, hmono, hcover, haccinv, hwf, hskip⟩ :=
        ih rows nid acc hnd hpos hids hacc
      refine ⟨rows', nid', acc', by simpa [insertTiemposLoop, ht] using heq, hmono, ?_,
        haccinv, hwf, ?_⟩
      · intro x hx
        rcases List.mem_cons.mp hx with hx | hx
        · obtain ⟨v, hv⟩ := Option.isSome_iff_exists.mp (hx ▸ ht)
          simp [hmono x.key v hv]
        · exact hcover x hx
      · intro hall
        exact hskip (fun x hx => hall x (List.mem_cons_of_mem t hx))
    · have htnone : findTiempo rows t.key = none := Option.not_isSome_iff_eq_none.mp ht
      have hnewrow : findTiempo
          (rows ++ [⟨nid, t.fecha, t.hora, t.minuto, t.cuarto_hora, claveOf t⟩]) t.key =
          some nid := by
        rw [findTiempo_append_none rows _ t.key htnone]
        have : (⟨nid, t.fecha, t.hora, t.minuto, t.cuarto_hora, claveOf t⟩ : TiempoRow).key =
            t.key := rfl
        simp [findTiempo, this]
      have hnd1 : ((rows ++ [(⟨nid, t.fecha, t.hora, t.minuto, t.cuarto_hora, claveOf t⟩ :
          TiempoRow)]).map TiempoRow.key).Nodup := by
        have hnotin : t.key ∉ rows.map TiempoRow.key := (findTiempo_none_iff rows t.key).mp htnone
        have hkeyeq : (⟨nid, t.fecha, t.hora, t.minuto, t.cuarto_hora, claveOf t⟩ :
            TiempoRow).key = t.key := rfl
        simpa [List.map_append, hkeyeq] using
          nodup_append_singleton (rows.map TiempoRow.key) t.key hnd hnotin
      have hids1 : ∀ r ∈ rows ++ [(⟨nid, t.fecha, t.hora, t.minuto, t.cuarto_hora, claveOf t⟩ :
          TiempoRow)], 0 < r.id_tiempo := by
        intro r hr
        rcases List.mem_append.mp hr with hr | hr
        · exact hids r hr
        · simp at hr
          subst hr
          exact hpos
      have hacc1 : ∀ k v, updMap acc t.key nid k = some v →
          findTiempo (rows ++ [⟨nid, t.fecha, t.hora, t.minuto, t.cuarto_hora, claveOf t⟩]) k =
            some v := by
        intro k v hk
        by_cases hkeq : k = t.key
        · subst hkeq
          simp [updMap] at hk
          exact hk ▸ hnewrow
        · simp [updMap, hkeq] at hk
          exact findTiempo_append_some rows _ k v (hacc k v hk)
      obtain ⟨rows', nid', acc', heq, hmono, hcover, haccinv, hwf, _⟩ :=
        ih (rows ++ [⟨nid, t.fecha, t.hora, t.minuto, t.cuarto_hora, claveOf t⟩]) (nid + 1)
          (updMap acc t.key nid) hnd1 (Nat.succ_pos nid) hids1 hacc1
      refine ⟨rows', nid', acc', by simpa [insertTiemposLoop, ht] using heq, ?_, ?_, haccinv,
        hwf, ?_⟩
      · intro k v hk
        exact hmono k v (findTiempo_append_some rows _ k v hk)
      · intro x hx
        rcases List.mem_cons.mp hx with hx | hx
        · subst hx
          simp [hmono x.key nid hnewrow]
        · exact hcover x hx
      · intro hall
        exact absurd (hall t (by simp)) ht

/-! ### insertNewTiemposBatch on the fault-free path -/

theorem insertNewTiemposBatch_spec (s : TiempoSession) (ts : List TiempoData)
    (hnd : (s.current.rows.map TiempoRow.key).Nodup)
    (hpos : 0 < s.current.nextId)
    (hids : ∀ r ∈ s.current.rows, 0 < r.id_tiempo) :
    ∃ s' m,
      insertNewTiemposBatch false false s ts = .ok (s', m) ∧
      s'.committed = s.committed ∧
      (∀ k v, findTiempo s.current.rows k = some v → findTiempo s'.current.rows k = some v) ∧
      (∀ k v, m k = some v → findTiempo s'.current.rows k = some v) ∧
      (∀ t ∈ ts, (findTiempo s'.current.rows t.key).isSome ∧
        m t.key = findTiempo s'.current.rows t.key) ∧
      ((s'.current.rows.map TiempoRow.key).Nodup ∧ 0 < s'.current.nextId ∧
        ∀ r ∈ s'.current.rows, 0 < r.id_tiempo) ∧
      ((∀ t ∈ ts, (findTiempo s.current.rows t.key).isSome) → s' = s) := by
  match ts with
  | [] =>
    exact ⟨s, fun _ => none, rfl, rfl, fun k v h => h, by simp, by simp,
      ⟨hnd, hpos, hids⟩, fun _ => rfl⟩
  | t :: rest =>
    obtain ⟨rows', nid', acc', heq, hmono, hcover, haccinv, hwf, hskip⟩ :=
      insertTiemposLoop_spec (t :: rest) s.current.rows s.current.nextId (fun _ => none)
        hnd hpos hids (by simp)
    have hcover' : ∀ x ∈ t :: rest, (acc' x.key).isNone = false →
        acc' x.key = findTiempo rows' x.key := by
      intro x hx hsome
      cases hacc : acc' x.key with
      | none => rw [hacc] at hsome; simp at hsome
      | some w => exact (haccinv x.key w hacc).symm
    cases hmiss : ((t :: rest).map TiempoData.key).dedup.filter (fun k => (acc' k).isNone) with
    | nil =>
      refine ⟨⟨s.committed, ⟨rows', nid'⟩⟩, acc', ?_, rfl, hmono, haccinv, ?_, hwf, ?_⟩
      · simp only [insertNewTiemposBatch, Bool.false_eq_true, if_false, heq, hmiss]
      · intro x hx
        have hxd : x.key ∈ ((t :: rest).map TiempoData.key).dedup :=
          List.mem_dedup.mpr (List.mem_map_of_mem TiempoData.key hx)
        have hnotnone : (acc' x.key).isNone = false := by
          by_contra hc
          have : x.key ∈ ((t :: rest).map TiempoData.key).dedup.filter
              (fun k => (acc' k).isNone) :=
            List.mem_filter.mpr ⟨hxd, by simpa using hc⟩
          rw [hmiss] at this
          simp at this
        exact ⟨hcover x hx, hcover' x hx hnotnone⟩
      · intro hall
        obtain ⟨h1, h2, _⟩ := hskip hall
        rw [h1, h2]
    | cons k0 ks =>
      refine ⟨⟨s.committed, ⟨rows', nid'⟩⟩,
        unionMap acc' (fun k => if k ∈ k0 :: ks then findTiempo rows' k else none), ?_, rfl,
        hmono, ?_, ?_, hwf, ?_⟩
      · simp only [insertNewTiemposBatch, Bool.false_eq_true, if_false, heq, hmiss,
          getExistingTiemposBatch]
      · intro k v hk
        simp only [unionMap] at hk
        by_cases hkm : k ∈ k0 :: ks
        · rw [if_pos hkm] at hk
          cases hf : findTiempo rows' k with
          | none =>
            rw [hf] at hk
            exact hf.symm.trans (haccinv k v hk)
          | some w =>
            rw [hf] at hk
            simp at hk
            rw [hk]
        · rw [if_neg hkm] at hk
          exact haccinv k v hk
      · intro x hx
        refine ⟨hcover x hx, ?_⟩
        by_cases hxm : x.key ∈ k0 :: ks
        · obtain ⟨w, hw⟩ := Option.isSome_iff_exists.mp (hcover x hx)
          simp [unionMap, hxm, hw]
        · have hxd : x.key ∈ ((t :: rest).map TiempoData.key).dedup :=
            List.mem_dedup.mpr (List.mem_map_of_mem TiempoData.key hx)
          have hnotnone : (acc' x.key).isNone = false := by
            by_contra hc
            have hmem : x.key ∈ ((t :: rest).map TiempoData.key).dedup.filter
                (fun k => (acc' k).isNone) :=
              List.mem_filter.mpr ⟨hxd, by simpa using hc⟩
            rw [hmiss] at hmem
            exact hxm hmem
          have hacceq := hcover' x hx hnotnone
          show unionMap acc' (fun k => if k ∈ k0 :: ks then findTiempo rows' k else none) x.key
            = findTiempo rows' x.key
          simp only [unionMap, if_neg hxm]
          exact hacceq
      · intro hall
        obtain ⟨h1, h2, _⟩ := hskip hall
        rw [h1, h2]

/-! ### insert_or_get_tiempos: characterization on the fault-free path -/

theorem insert_or_get_tiempos_spec (db : TiempoDB) (data concurrent : List TiempoData)
    (h : TiempoWF db) :
    ∃ db' m,
      insert_or_get_tiempos false false false concurrent db data = (db', .ok m) ∧
      TiempoWF db' ∧
      (∀ k v, findTiempo db.rows k = some v → findTiempo db'.rows k = some v) ∧
      (∀ k v, m k = some v → findTiempo db'.rows k = some v) ∧
      (∀ t ∈ data, (findTiempo db'.rows t.key).isSome ∧
        m t.key = findTiempo db'.rows t.key) ∧
      ((concurrent = [] ∧ ∀ t ∈ data, (findTiempo db.rows t.key).isSome) → db' = db) := by
  obtain ⟨hndc, hposc, hidsc⟩ := commitConcurrentTiempos_WF concurrent db h
  obtain ⟨s', m', heq', hcomm, hmono', hminv, hcover, hwf', hskip⟩ :=
    insertNewTiemposBatch_spec
      ⟨commitConcurrentTiempos db concurrent, commitConcurrentTiempos db concurrent⟩
      (data.filter (fun t =>
        (if t.key ∈ data.map TiempoData.key then findTiempo db.rows t.key else none).isNone))
      hndc hposc hidsc
  refine ⟨s'.current,
    unionMap (fun k => if k ∈ data.map TiempoData.key then findTiempo db.rows k else none) m',
    ?_, ⟨hwf'.1, hwf'.2.1, hwf'.2.2⟩, ?_, ?_, ?_, ?_⟩
  · simp only [insert_or_get_tiempos, getExistingTiemposBatch, Bool.false_eq_true, if_false]
    rw [heq']
  · intro k v hv
    exact hmono' k v (commitConcurrentTiempos_mono concurrent db k v hv)
  · intro k v hk
    simp only [unionMap] at hk
    cases hm' : m' k with
    | some w =>
      rw [hm'] at hk
      simp at hk
      rw [← hk]
      exact hminv k w hm'
    | none =>
      rw [hm'] at hk
      by_cases htup : k ∈ data.map TiempoData.key
      · rw [if_pos htup] at hk
        exact hmono' k v (commitConcurrentTiempos_mono concurrent db k v hk)
      · rw [if_neg htup] at hk
        simp at hk
  · intro t ht
    have htup : t.key ∈ data.map TiempoData.key := List.mem_map_of_mem TiempoData.key ht
    by_cases hmem0 : (if t.key ∈ data.map TiempoData.key then
        findTiempo db.rows t.key else none).isNone
    · have htn : t ∈ data.filter (fun t =>
          (if t.key ∈ data.map TiempoData.key then findTiempo db.rows t.key else none).isNone) :=
        List.mem_filter.mpr ⟨ht, by simpa using hmem0⟩
      obtain ⟨hsome, hmeq⟩ := hcover t htn
      refine ⟨hsome, ?_⟩
      obtain ⟨w, hw⟩ := Option.isSome_iff_exists.mp hsome
      simp only [unionMap, hmeq, hw]
    · rw [if_pos htup] at hmem0
      have hsome0 : (findTiempo db.rows t.key).isSome := by
        cases hm : findTiempo db.rows t.key with
        | none => rw [hm] at hmem0; simp at hmem0
        | some w => simp
      obtain ⟨v, hv⟩ := Option.isSome_iff_exists.mp hsome0
      have hvf : findTiempo s'.current.rows t.key = some v :=
        hmono' t.key v (commitConcurrentTiempos_mono concurrent db t.key v hv)
      refine ⟨by simp [hvf], ?_⟩
      cases hm' : m' t.key with
      | none =>
        simp only [unionMap, hm', if_pos htup]
        rw [hv, hvf]
      | some w =>
        have hwf2 : findTiempo s'.current.rows t.key = some w := hminv t.key w hm'
        simp only [unionMap, hm']
        rw [hwf2]
  · intro hid
    obtain ⟨hc, hall⟩ := hid
    subst hc
    have hfilter : data.filter (fun t =>
        (if t.key ∈ data.map TiempoData.key then findTiempo db.rows t.key else none).isNone) =
        [] := by
      refine List.filter_eq_nil_iff.mpr ?_
      intro t ht
      have htup : t.key ∈ data.map TiempoData.key := List.mem_map_of_mem TiempoData.key ht
      obtain ⟨v, hv⟩ := Option.isSome_iff_exists.mp (hall t ht)
      simp [htup, hv]
    have hs : s' = ⟨commitConcurrentTiempos db [], commitConcurrentTiempos db []⟩ := by
      refine hskip ?_
      intro t ht
      rw [hfilter] at ht
      simp at ht
    rw [hs]
    rfl

/-! ### findEmpresa and insert_or_get_empresas -/

theorem findEmpresa_append_some (rows more : List EmpresaRow) (n : String) (v : Nat)
    (h : findEmpresa rows n = some v) : findEmpresa (rows ++ more) n = some v := by
  induction rows with
  | nil => simp [findEmpresa] at h
  | cons r rest ih =>
    by_cases hr : r.nombre = n
    · simpa [findEmpresa, hr] using by simpa [findEmpresa, hr] using h
    · simp [findEmpresa, hr] at h ⊢
      exact ih h

theorem findEmpresa_append_none (rows more : List EmpresaRow) (n : String)
    (h : findEmpresa rows n = none) : findEmpresa (rows ++ more) n = findEmpresa more n := by
  induction rows with
  | nil => simp [findEmpresa]
  | cons r rest ih =>
    by_cases hr : r.nombre = n
    · simp [findEmpresa, hr] at h
    · simp [findEmpresa, hr] at h ⊢
      exact ih h

theorem findEmpresa_none_iff (rows : List EmpresaRow) (n : String) :
    findEmpresa rows n = none ↔ n ∉ rows.map (fun r => r.nombre) := by
  induction rows with
  | nil => simp [findEmpresa]
  | cons r rest ih =>
    by_cases hr : r.nombre = n
    · simp [findEmpresa, hr]
    · simp [findEmpresa, hr, ih, Ne.symm hr]

theorem findEmpresa_pos (rows : List EmpresaRow) (n : String) (v : Nat)
    (hids : ∀ r ∈ rows, 0 < r.id_emp) (h : findEmpresa rows n = some v) : 0 < v := by
  induction rows with
  | nil => simp [findEmpresa] at h
  | cons r rest ih =>
    by_cases hr : r.nombre = n
    · simp [findEmpresa, hr] at h
      exact h ▸ hids r (by simp)
    · simp [findEmpresa, hr] at h
      exact ih (fun x hx => hids x (by simp [hx])) h

theorem insertEmpresasLoop_spec (ns : List String) :
    ∀ (rows : List EmpresaRow) (nid : Nat) (acc : String → Option Nat),
    ns.Nodup →
    (∀ n ∈ ns, findEmpresa rows n = none) →
    (rows.map (fun r => r.nombre)).Nodup →
    0 < nid →
    (∀ r ∈ rows, 0 < r.id_emp) →
    (∀ n v, acc n = some v → findEmpresa rows n = some v) →
    ∃ rows' nid' acc',
      insertEmpresasLoop rows nid acc ns = (rows', nid', acc') ∧
      (∀ n v, findEmpresa rows n = some v → findEmpresa rows' n = some v) ∧
      (∀ n, n ∉ ns → acc' n = acc n) ∧
      (∀ n ∈ ns, (findEmpresa rows' n).isSome ∧ acc' n = findEmpresa rows' n) ∧
      (∀ n v, acc' n = some v → findEmpresa rows' n = some v) ∧
      (rows'.map (fun r => r.nombre)).Nodup ∧
      0 < nid' ∧
      (∀ r ∈ rows', 0 < r.id_emp) := by
  induction ns with
  | nil =>
    intro rows nid acc _ _ hnd hpos hids hacc
    exact ⟨rows, nid, acc, rfl, fun n v h => h, fun n _ => rfl, by simp, hacc, hnd, hpos, hids⟩
  | cons n rest ih =>
    intro rows nid acc hnodup habs hnd hpos hids hacc
    have hn : findEmpresa rows n = none := habs n (by simp)
    have hnrest : n ∉ rest := (List.nodup_cons.mp hnodup).1
    have hrest_nodup : rest.Nodup := (List.nodup_cons.mp hnodup).2
    have hnewrow : findEmpresa (rows ++ [⟨nid, n, "unclassified"⟩]) n = some nid := by
      rw [findEmpresa_append_none rows _ n hn]
      simp [findEmpresa]
    have habs1 : ∀ x ∈ rest, findEmpresa (rows ++ [⟨nid, n, "unclassified"⟩]) x = none := by
      intro x hx
      have hxn : ¬ n = x := fun h => hnrest (h ▸ hx)
      rw [findEmpresa_append_none rows _ x (habs x (by simp [hx]))]
      simp [findEmpresa, hxn]
    have hnd1 : ((rows ++ [(⟨nid, n, "unclassified"⟩ : EmpresaRow)]).map
        (fun r => r.nombre)).Nodup := by
      have : n ∉ rows.map (fun r => r.nombre) := (findEmpresa_none_iff rows n).mp hn
      simpa [List.map_append] using
        nodup_append_singleton (rows.map (fun r => r.nombre)) n hnd this
    have hids1 : ∀ r ∈ rows ++ [(⟨nid, n, "unclassified"⟩ : EmpresaRow)], 0 < r.id_emp := by
      intro r hr
      rcases List.mem_append.mp hr with hr | hr
      · exact hids r hr
      · simp at hr
        subst hr
        exact hpos
    have hacc1 : ∀ x v, updMap acc n nid x = some v →
        findEmpresa (rows ++ [⟨nid, n, "unclassified"⟩]) x = some v := by
      intro x v hx
      by_cases hxeq : x = n
      · subst hxeq
        simp [updMap] at hx
        exact hx ▸ hnewrow
      · simp [updMap, hxeq] at hx
        exact findEmpresa_append_some rows _ x v (hacc x v hx)
    obtain ⟨rows', nid', acc', heq, hmono, hframe, hcover, haccinv, hnd', hpos', hids'⟩ :=
      ih (rows ++ [⟨nid, n, "unclassified"⟩]) (nid + 1) (updMap acc n nid) hrest_nodup habs1
        hnd1 (Nat.succ_pos nid) hids1 hacc1
    refine ⟨rows', nid', acc', by simpa [insertEmpresasLoop, hn] using heq, ?_, ?_, ?_,
      haccinv, hnd', hpos', hids'⟩
    · intro x v hx
      exact hmono x v (findEmpresa_append_some rows _ x v hx)
    · intro x hx
      have hxn : ¬ x = n := fun h => hx (h ▸ List.mem_cons_self n rest)
      have hxrest : x ∉ rest := fun h => hx (List.mem_cons_of_mem n h)
      rw [hframe x hxrest]
      simp [updMap, hxn]
    · intro x hx
      rcases List.mem_cons.mp hx with hx | hx
      · subst hx
        have haccx : acc' x = some nid := by
          rw [hframe x hnrest]
          simp [updMap]
        have hfind : findEmpresa rows' x = some nid := haccinv x nid haccx
        exact ⟨by simp [hfind], haccx.trans hfind.symm⟩
      · exact hcover x hx

theorem insert_or_get_empresas_spec (db : EmpresaDB) (names : List String)
    (h : EmpresaWF db) :
    ∃ db' m,
      insert_or_get_empresas db names = (db', m) ∧
      EmpresaWF db' ∧
      (∀ n v, findEmpresa db.rows n = some v → findEmpresa db'.rows n = some v) ∧
      (∀ n v, m n = some v → findEmpresa db'.rows n = some v) ∧
      (∀ n ∈ names, (findEmpresa db'.rows n).isSome ∧ m n = findEmpresa db'.rows n) := by
  obtain ⟨hnd, hpos, hids⟩ := h
  have hnodup : (names.dedup.filter (fun n => (findEmpresa db.rows n).isNone)).Nodup :=
    List.Nodup.filter _ (List.nodup_dedup names)
  have habs : ∀ n ∈ names.dedup.filter (fun n => (findEmpresa db.rows n).isNone),
      findEmpresa db.rows n = none := by
    intro n hn
    exact Option.isNone_iff_eq_none.mp (List.mem_filter.mp hn).2
  have hacc : ∀ n v, (fun n => if n ∈ names then findEmpresa db.rows n else none) n = some v →
      findEmpresa db.rows n = some v := by
    intro n v hn
    by_cases hmem : n ∈ names
    · simpa [hmem] using hn
    · simp [hmem] at hn
  obtain ⟨rows', nid', acc', heq, hmono, hframe, hcover, haccinv, hnd', hpos', hids'⟩ :=
    insertEmpresasLoop_spec (names.dedup.filter (fun n => (findEmpresa db.rows n).isNone))
      db.rows db.nextId (fun n => if n ∈ names then findEmpresa db.rows n else none)
      hnodup habs hnd hpos hids hacc
  refine ⟨⟨rows', nid'⟩, acc', ?_, ⟨hnd', hpos', hids'⟩, hmono, haccinv, ?_⟩
  · simp only [insert_or_get_empresas, heq]
  · intro n hn
    by_cases hnew : n ∈ names.dedup.filter (fun n => (findEmpresa db.rows n).isNone)
    · exact hcover n hnew
    · have hmemdedup : n ∈ names.dedup := List.mem_dedup.mpr hn
      have hsome : (findEmpresa db.rows n).isSome := by
        by_contra hns
        exact hnew (List.mem_filter.mpr
          ⟨hmemdedup, by simp [Option.not_isSome_iff_eq_none.mp hns]⟩)
      obtain ⟨v, hv⟩ := Option.isSome_iff_exists.mp hsome
      have hv' : findEmpresa rows' n = some v := hmono n v hv
      refine ⟨by simp [hv'], ?_⟩
      rw [hframe n hnew, hv']
      simp [hn, hv]

/-! ## Claim theorems -/

/-- C1: resolving the same dimension natural key (a location name, or a
(fecha, hora, minuto) triple) in two separate runs yields the same surrogate
key both times and leaves exactly one dimension row for that key: the second
call to insert_or_get_barras / insert_or_get_tiempos finds the rows created by
the first call, returns the same ids, and inserts nothing. -/
theorem c1_idempotent_dimension_resolution
    (bdb : BarraDB) (tdb : TiempoDB) (names : List String) (data : List TiempoData)
    (hb : BarraWF bdb) (ht : TiempoWF tdb) :
    ∃ bdb1 m1 bdb2 m2 tdb1 w1 tdb2 w2,
      insert_or_get_barras [] bdb names = (bdb1, .ok m1) ∧
      insert_or_get_barras [] bdb1 names = (bdb2, .ok m2) ∧
      bdb2 = bdb1 ∧
      (∀ n ∈ names, m1 n = m2 n ∧ (m1 n).isSome ∧ countBarra bdb1.rows n = 1) ∧
      insert_or_get_tiempos false false false [] tdb data = (tdb1, .ok w1) ∧
      insert_or_get_tiempos false false false [] tdb1 data = (tdb2, .ok w2) ∧
      tdb2 = tdb1 ∧
      (∀ t ∈ data, w1 t.key = w2 t.key ∧ (w1 t.key).isSome ∧
        countTiempo tdb1.rows t.key = 1) := by
  obtain ⟨bdb1, m1, heqB1, hwfB1, _, _, hcovB1, _⟩ := insert_or_get_barras_spec bdb names hb
  obtain ⟨bdb2, m2, heqB2, _, _, _, hcovB2, hidB2⟩ := insert_or_get_barras_spec bdb1 names hwfB1
  have hbdb : bdb2 = bdb1 := hidB2 (fun n hn => (hcovB1 n hn).1)
  obtain ⟨tdb1, w1, heqT1, hwfT1, _, _, hcovT1, _⟩ := insert_or_get_tiempos_spec tdb data [] ht
  obtain ⟨tdb2, w2, heqT2, _, _, _, hcovT2, hidT2⟩ :=
    insert_or_get_tiempos_spec tdb1 data [] hwfT1
  have htdb : tdb2 = tdb1 := hidT2 ⟨rfl, fun t htm => (hcovT1 t htm).1⟩
  refine ⟨bdb1, m1, bdb2, m2, tdb1, w1, tdb2, w2, heqB1, heqB2, hbdb, ?_, heqT1, heqT2,
    htdb, ?_⟩
  · intro n hn
    obtain ⟨hsome1, hm1⟩ := hcovB1 n hn
    obtain ⟨_, hm2⟩ := hcovB2 n hn
    obtain ⟨v, hv⟩ := Option.isSome_iff_exists.mp hsome1
    refine ⟨?_, by rw [hm1]; exact hsome1, countBarra_eq_one bdb1.rows n v hwfB1.1 hv⟩
    rw [hm1, hm2, hbdb]
  · intro t htm
    obtain ⟨hsome1, hm1⟩ := hcovT1 t htm
    obtain ⟨_, hm2⟩ := hcovT2 t htm
    obtain ⟨v, hv⟩ := Option.isSome_iff_exists.mp hsome1
    refine ⟨?_, by rw [hm1]; exact hsome1, countTiempo_eq_one tdb1.rows t.key v hwfT1.1 hv⟩
    rw [hm1, hm2, htdb]

/-- C1 witness: the idempotence theorem applied to an empty store, one
location name and one time triple. -/
theorem c1_witness :
    ∃ bdb1 m1 bdb2 m2 tdb1 w1 tdb2 w2,
      insert_or_get_barras [] ⟨[], 1⟩ ["A"] = (bdb1, .ok m1) ∧
      insert_or_get_barras [] bdb1 ["A"] = (bdb2, .ok m2) ∧
      bdb2 = bdb1 ∧
      (∀ n ∈ ["A"], m1 n = m2 n ∧ (m1 n).isSome ∧ countBarra bdb1.rows n = 1) ∧
      insert_or_get_tiempos false false false [] ⟨[], 1⟩
        [⟨⟨2024, 10, 1⟩, 0, 0, 0, none⟩] = (tdb1, .ok w1) ∧
      insert_or_get_tiempos false false false [] tdb1
        [⟨⟨2024, 10, 1⟩, 0, 0, 0, none⟩] = (tdb2, .ok w2) ∧
      tdb2 = tdb1 ∧
      (∀ t ∈ [(⟨⟨2024, 10, 1⟩, 0, 0, 0, none⟩ : TiempoData)], w1 t.key = w2 t.key ∧
        (w1 t.key).isSome ∧ countTiempo tdb1.rows t.key = 1) :=
  c1_idempotent_dimension_resolution ⟨[], 1⟩ ⟨[], 1⟩ ["A"]
    [⟨⟨2024, 10, 1⟩, 0, 0, 0, none⟩]
    ⟨by simp, by decide, by simp⟩ ⟨by simp, by decide, by simp⟩

/-- C2 counterexample: the location resolver is NOT conflict-tolerant.  With
an empty `barra` table, a candidate name "X" absent at lookup time, and a
concurrent writer committing "X" before the insert phase, the plain INSERT
violates the unique constraint and `insert_or_get_barras` surfaces the error
instead of falling back to a lookup. -/
theorem c2_conflict_counterexample :
    findBarra (⟨[], 1⟩ : BarraDB).rows "X" = none ∧
    (insert_or_get_barras ["X"] ⟨[], 1⟩ ["X"]).2 = .error .uniqueViolation :=
  ⟨rfl, rfl⟩

/-- C2 (amended): conflict tolerance holds only for the time resolver —
`insert_or_get_tiempos` inserts with ON CONFLICT DO NOTHING and recovers the
authoritative id of any key a concurrent writer created first by re-querying
it; the location resolver `insert_or_get_barras` uses a plain INSERT, so a
key that a concurrent writer committed first surfaces as a unique-violation
error after rollback. -/
theorem c2_conflict_tolerance_amended :
    (∀ (tdb : TiempoDB) (data concurrent : List TiempoData), TiempoWF tdb →
      ∃ tdb' m, insert_or_get_tiempos false false false concurrent tdb data =
        (tdb', .ok m) ∧
        ∀ t ∈ data, (m t.key).isSome ∧ m t.key = findTiempo tdb'.rows t.key) ∧
    (∀ (bdb : BarraDB) (names concurrent : List String) (n0 : String),
      n0 ∈ names → findBarra bdb.rows n0 = none → n0 ∈ concurrent →
      (insert_or_get_barras concurrent bdb names).2 = .error .uniqueViolation) := by
  constructor
  · intro tdb data concurrent hwf
    obtain ⟨tdb', m, heq, _, _, _, hcov, _⟩ := insert_or_get_tiempos_spec tdb data concurrent hwf
    refine ⟨tdb', m, heq, ?_⟩
    intro t htm
    obtain ⟨hsome, hm⟩ := hcov t htm
    exact ⟨by rw [hm]; exact hsome, hm⟩
  · intro bdb names concurrent n0 h1 h2 h3
    exact insert_or_get_barras_conflict bdb names concurrent n0 h1 h2 h3

/-- C2 witness: the amended theorem applied to concrete stores — a time key
raced by a concurrent writer still resolves to an id, and a location name
raced by a concurrent writer makes the call error. -/
theorem c2_witness :
    (∃ tdb' m, insert_or_get_tiempos false false false
        [⟨⟨2024, 10, 1⟩, 0, 0, 0, none⟩] ⟨[], 1⟩ [⟨⟨2024, 10, 1⟩, 0, 0, 0, none⟩] =
        (tdb', .ok m) ∧
        ∀ t ∈ [(⟨⟨2024, 10, 1⟩, 0, 0, 0, none⟩ : TiempoData)],
          (m t.key).isSome ∧ m t.key = findTiempo tdb'.rows t.key) ∧
    (insert_or_get_barras ["X"] ⟨[⟨1, "Y"⟩], 2⟩ ["Y", "X"]).2 = .error .uniqueViolation :=
  ⟨c2_conflict_tolerance_amended.1 ⟨[], 1⟩ [⟨⟨2024, 10, 1⟩, 0, 0, 0, none⟩]
      [⟨⟨2024, 10, 1⟩, 0, 0, 0, none⟩] ⟨by simp, by decide, by simp⟩,
    c2_conflict_tolerance_amended.2 ⟨[⟨1, "Y"⟩], 2⟩ ["Y", "X"] ["X"] "X"
      (by decide) (by decide) (by decide)⟩

/-- C4: a file undecodable in all four tried encodings does NOT propagate a
load failure to the caller.  The encoding loop does raise (`load_csv_inner`
errors, and the spec-worded loader `loadFileAsSpecified` errors), but
`load_csv`'s own outer `except Exception` handler catches that very error and
returns `[]`, so the caller receives an empty dataset instead of a fatal
`LoadError`. -/
theorem c4_undecodable_file_swallowed :
    load_csv ([none, none, none, none] : List (Option (List Nat))) = [] ∧
    load_csv_inner ([none, none, none, none] : List (Option (List Nat))) =
      .error .undecodable ∧
    loadFileAsSpecified ([none, none, none, none] : List (Option (List Nat))) =
      .error .undecodable :=
  ⟨rfl, rfl, rfl⟩

/-- Helper: Python truthiness of an optional id unfolded. -/
theorem truthy_iff (o : Option Nat) : truthy o = true ↔ ∃ v, o = some v ∧ v ≠ 0 := by
  cases o with
  | none => simp [truthy]
  | some v => simp [truthy]

/-- Helper: what a successfully built price fact row contains. -/
theorem precioRowBuild_some (tm : TiempoKey → Option Nat) (bm : String → Option Nat)
    (r : PrecioRow) (fr : PrecioFact) (h : precioRowBuild tm bm r = some fr) :
    tm (precioTiempoKey r) = some fr.tiempo_id ∧ bm r.BARRA = some fr.barra_id ∧
    fr.tiempo_id ≠ 0 ∧ fr.barra_id ≠ 0 := by
  unfold precioRowBuild at h
  by_cases hc : (truthy (tm (precioTiempoKey r)) && truthy (bm r.BARRA)) = true
  · rw [if_pos hc] at h
    obtain ⟨h1, h2⟩ := Bool.and_eq_true_iff.mp hc
    obtain ⟨a, ha, hane⟩ := (truthy_iff _).mp h1
    obtain ⟨b, hb, hbne⟩ := (truthy_iff _).mp h2
    injection h with h
    subst h
    simp [ha, hb]
    exact ⟨hane, hbne⟩
  · rw [if_neg hc] at h
    simp at h

/-- Helper: what a successfully built withdrawal fact row contains. -/
theorem retiroRowBuild_some (tm : TiempoKey → Option Nat) (bm em : String → Option Nat)
    (r : RetiroRow) (fr : RetiroFact) (h : retiroRowBuild tm bm em r = some fr) :
    tm (retiroTiempoKey r) = some fr.tiempo_id ∧ bm r.Barra = some fr.barra_id ∧
    em r.Suministrador = some fr.suministrador_id ∧ em r.Retiro = some fr.retiro_id ∧
    fr.tiempo_id ≠ 0 ∧ fr.barra_id ≠ 0 ∧ fr.suministrador_id ≠ 0 ∧ fr.retiro_id ≠ 0 := by
  unfold retiroRowBuild at h
  by_cases hc : (truthy (tm (retiroTiempoKey r)) && truthy (bm r.Barra) &&
      truthy (em r.Suministrador) && truthy (em r.Retiro)) = true
  · rw [if_pos hc] at h
    obtain ⟨h123, h4⟩ := Bool.and_eq_true_iff.mp hc
    obtain ⟨h12, h3⟩ := Bool.and_eq_true_iff.mp h123
    obtain ⟨h1, h2⟩ := Bool.and_eq_true_iff.mp h12
    obtain ⟨a, ha, hane⟩ := (truthy_iff _).mp h1
    obtain ⟨b, hb, hbne⟩ := (truthy_iff _).mp h2
    obtain ⟨c, hcv, hcne⟩ := (truthy_iff _).mp h3
    obtain ⟨d, hd, hdne⟩ := (truthy_iff _).mp h4
    injection h with h
    subst h
    simp [ha, hb, hcv, hd]
    exact ⟨hane, hbne, hcne, hdne⟩
  · rw [if_neg hc] at h
    simp at h

/-- C7: the withdrawal normalizer derives hora and minuto from the 1-indexed
quarter-hour as `hora = (q - 1) // 4`, `minuto = ((q - 1) % 4) * 15`; in
particular q=1 gives (0,0), q=4 gives (0,45) and q=5 gives (1,0).  (For q ≥ 1
the dividend is non-negative, so Lean's integer division agrees with
Python's floor division.) -/
theorem c7_quarter_hour_derivation :
    (∀ r : RetiroRow, (retiroTiempoData r).hora = (r.cuarto_de_hora - 1) / 4 ∧
      (retiroTiempoData r).minuto = ((r.cuarto_de_hora - 1) % 4) * 15 ∧
      retiroTiempoKey r = ⟨r.clave_anio_mes, (r.cuarto_de_hora - 1) / 4,
        ((r.cuarto_de_hora - 1) % 4) * 15⟩) ∧
    ((retiroTiempoData ⟨1, "B", "S", "R", "c", "t", 0, ⟨2024, 10, 1⟩⟩).hora = 0 ∧
      (retiroTiempoData ⟨1, "B", "S", "R", "c", "t", 0, ⟨2024, 10, 1⟩⟩).minuto = 0) ∧
    ((retiroTiempoData ⟨4, "B", "S", "R", "c", "t", 0, ⟨2024, 10, 1⟩⟩).hora = 0 ∧
      (retiroTiempoData ⟨4, "B", "S", "R", "c", "t", 0, ⟨2024, 10, 1⟩⟩).minuto = 45) ∧
    ((retiroTiempoData ⟨5, "B", "S", "R", "c", "t", 0, ⟨2024, 10, 1⟩⟩).hora = 1 ∧
      (retiroTiempoData ⟨5, "B", "S", "R", "c", "t", 0, ⟨2024, 10, 1⟩⟩).minuto = 0) :=
  ⟨fun r => ⟨rfl, rfl, rfl⟩, ⟨by decide, by decide⟩, ⟨by decide, by decide⟩,
    ⟨by decide, by decide⟩⟩

/-- C8: the date parser dispatches all-digit strings on their length before
trying the delimited-format list, and day-first formats precede month-first:
"2410" parses as YYMM to 2024-10-01; "20241004" as YYYYMMDD to 2024-10-04;
"241001" as YYMMDD to 2024-10-01; "202410" fails YYMMDD and then parses as
YYYYMM to 2024-10-01; and the ambiguous "04/10/2024" resolves day-first to
2024-10-04 even though the month-first reading 2024-04-10 would also be
well-formed. -/
theorem c8_date_parser_dispatch :
    parse_date "2410" = some ⟨2024, 10, 1⟩ ∧
    parse_date "20241004" = some ⟨2024, 10, 4⟩ ∧
    parse_date "241001" = some ⟨2024, 10, 1⟩ ∧
    parse_date "202410" = some ⟨2024, 10, 1⟩ ∧
    strptimeYYMMDD "202410".toList = none ∧
    parse_date "04/10/2024" = some ⟨2024, 10, 4⟩ ∧
    fmtMDY '/' "04/10/2024".toList = some ⟨2024, 4, 10⟩ :=
  ⟨rfl, rfl, rfl, rfl, rfl, rfl, rfl⟩

/-- C10: the fact-row filters test Python truthiness of the resolved ids, not
presence in the map: a row whose resolved tiempo_id, barra_id or counterparty
id equals 0 is excluded from the insert set even though its natural key is
present in the mapping with that id, while nonzero ids pass. -/
theorem c10_truthiness_filter :
    precioRowBuild (fun _ => some 0) (fun _ => some 7)
      ⟨⟨2024, 10, 1⟩, 0, 0, "B", 0, 0, 0⟩ = none ∧
    (fun _ => (some 0 : Option Nat)) (precioTiempoKey ⟨⟨2024, 10, 1⟩, 0, 0, "B", 0, 0, 0⟩) =
      some 0 ∧
    precioRowBuild (fun _ => some 7) (fun _ => some 0)
      ⟨⟨2024, 10, 1⟩, 0, 0, "B", 0, 0, 0⟩ = none ∧
    precioRowBuild (fun _ => some 7) (fun _ => some 8)
      ⟨⟨2024, 10, 1⟩, 0, 0, "B", 0, 0, 0⟩ = some ⟨7, 8, 0, 0, 0⟩ ∧
    retiroRowBuild (fun _ => some 7) (fun _ => some 7)
      (fun n => if n = "S" then some 0 else some 7)
      ⟨1, "B", "S", "R", "c", "t", 0, ⟨2024, 10, 1⟩⟩ = none ∧
    (fun n => if n = "S" then (some 0 : Option Nat) else some 7) "S" = some 0 ∧
    retiroRowBuild (fun _ => some 7) (fun _ => some 7) (fun _ => some 7)
      ⟨1, "B", "S", "R", "c", "t", 0, ⟨2024, 10, 1⟩⟩ =
      some ⟨7, 7, 7, 7, "c", "t", 0⟩ :=
  ⟨rfl, rfl, rfl, rfl, rfl, rfl, rfl⟩

/-- C9 counterexample: with identical input and identical initial stores, two
runs of the contract batch on different days both end in the same way — the
fact insert raises `StatementError` (its `:nom_empresa` bind parameter is not
in the dicts the processor builds), so NO fact rows are produced on either
day and the produced fact rows are trivially equal across the two runs,
contradicting the claim that the produced fact rows differ. -/
theorem c9_no_facts_counterexample :
    process_contratos_batch ⟨2024, 10, 1⟩
        ⟨[⟨1, ⟨2024, 10, 1⟩, 0, 0, 1, "2024-10"⟩, ⟨2, ⟨2024, 10, 2⟩, 0, 0, 1, "2024-10"⟩], 3⟩
        ⟨[⟨1, "B"⟩], 2⟩ ⟨[⟨1, "E", "unclassified"⟩], 2⟩ []
        [⟨1, "B", "c", "E", "t", 0, 0, 5, 0⟩] = .error .statementError ∧
    process_contratos_batch ⟨2024, 10, 2⟩
        ⟨[⟨1, ⟨2024, 10, 1⟩, 0, 0, 1, "2024-10"⟩, ⟨2, ⟨2024, 10, 2⟩, 0, 0, 1, "2024-10"⟩], 3⟩
        ⟨[⟨1, "B"⟩], 2⟩ ⟨[⟨1, "E", "unclassified"⟩], 2⟩ []
        [⟨1, "B", "c", "E", "t", 0, 0, 5, 0⟩] = .error .statementError ∧
    contratoFactsOf (process_contratos_batch ⟨2024, 10, 1⟩
        ⟨[⟨1, ⟨2024, 10, 1⟩, 0, 0, 1, "2024-10"⟩, ⟨2, ⟨2024, 10, 2⟩, 0, 0, 1, "2024-10"⟩], 3⟩
        ⟨[⟨1, "B"⟩], 2⟩ ⟨[⟨1, "E", "unclassified"⟩], 2⟩ []
        [⟨1, "B", "c", "E", "t", 0, 0, 5, 0⟩]) =
      contratoFactsOf (process_contratos_batch ⟨2024, 10, 2⟩
        ⟨[⟨1, ⟨2024, 10, 1⟩, 0, 0, 1, "2024-10"⟩, ⟨2, ⟨2024, 10, 2⟩, 0, 0, 1, "2024-10"⟩], 3⟩
        ⟨[⟨1, "B"⟩], 2⟩ ⟨[⟨1, "E", "unclassified"⟩], 2⟩ []
        [⟨1, "B", "c", "E", "t", 0, 0, 5, 0⟩]) :=
  ⟨rfl, rfl, rfl⟩

/-- C9 (amended): the physical-contract pipeline keys every row's time
dimension on the run date (`datetime.now().date()`, the `today` parameter of
the embedding), not on anything carried by the input row — the validated
contract row has no date column — so two runs on identical input and
identical initial stores, executed on different days, resolve different
time-dimension rows and prepare different fact-row insert sets (here
tiempo_id 1 versus 2); the fact insert itself then raises `StatementError`
(unbound `:nom_empresa`) on both days, so the pipeline errors and no fact
rows are actually produced on any day. -/
theorem c9_run_date_amended :
    (∀ (today : Date) (r : ContratoRow), (contratoTiempoData today r).fecha = today ∧
      (contratoTiempoKey today r).fecha = today) ∧
    contratosToInsert ⟨2024, 10, 1⟩
      (lookupResolve (insert_or_get_tiempos false false false []
        ⟨[⟨1, ⟨2024, 10, 1⟩, 0, 0, 1, "2024-10"⟩, ⟨2, ⟨2024, 10, 2⟩, 0, 0, 1, "2024-10"⟩], 3⟩
        ([(⟨1, "B", "c", "E", "t", 0, 0, 5, 0⟩ : ContratoRow)].map
          (contratoTiempoData ⟨2024, 10, 1⟩))).2)
      (lookupBarrasResolve (insert_or_get_barras [] ⟨[⟨1, "B"⟩], 2⟩
        (([(⟨1, "B", "c", "E", "t", 0, 0, 5, 0⟩ : ContratoRow)].map
          (fun r => r.Barra)).dedup)).2)
      ((insert_or_get_empresas ⟨[⟨1, "E", "unclassified"⟩], 2⟩
        (([(⟨1, "B", "c", "E", "t", 0, 0, 5, 0⟩ : ContratoRow)].map
          (fun r => r.Empresa)).dedup)).2)
      [⟨1, "B", "c", "E", "t", 0, 0, 5, 0⟩] = [⟨1, 1, "c", 1, "t", 0, 0, 5, 0⟩] ∧
    contratosToInsert ⟨2024, 10, 2⟩
      (lookupResolve (insert_or_get_tiempos false false false []
        ⟨[⟨1, ⟨2024, 10, 1⟩, 0, 0, 1, "2024-10"⟩, ⟨2, ⟨2024, 10, 2⟩, 0, 0, 1, "2024-10"⟩], 3⟩
        ([(⟨1, "B", "c", "E", "t", 0, 0, 5, 0⟩ : ContratoRow)].map
          (contratoTiempoData ⟨2024, 10, 2⟩))).2)
      (lookupBarrasResolve (insert_or_get_barras [] ⟨[⟨1, "B"⟩], 2⟩
        (([(⟨1, "B", "c", "E", "t", 0, 0, 5, 0⟩ : ContratoRow)].map
          (fun r => r.Barra)).dedup)).2)
      ((insert_or_get_empresas ⟨[⟨1, "E", "unclassified"⟩], 2⟩
        (([(⟨1, "B", "c", "E", "t", 0, 0, 5, 0⟩ : ContratoRow)].map
          (fun r => r.Empresa)).dedup)).2)
      [⟨1, "B", "c", "E", "t", 0, 0, 5, 0⟩] = [⟨2, 1, "c", 1, "t", 0, 0, 5, 0⟩] ∧
    ([(⟨1, 1, "c", 1, "t", 0, 0, 5, 0⟩ : ContratoFact)] ≠
      [(⟨2, 1, "c", 1, "t", 0, 0, 5, 0⟩ : ContratoFact)]) ∧
    process_contratos_batch ⟨2024, 10, 1⟩
        ⟨[⟨1, ⟨2024, 10, 1⟩, 0, 0, 1, "2024-10"⟩, ⟨2, ⟨2024, 10, 2⟩, 0, 0, 1, "2024-10"⟩], 3⟩
        ⟨[⟨1, "B"⟩], 2⟩ ⟨[⟨1, "E", "unclassified"⟩], 2⟩ []
        [⟨1, "B", "c", "E", "t", 0, 0, 5, 0⟩] = .error .statementError ∧
    process_contratos_batch ⟨2024, 10, 2⟩
        ⟨[⟨1, ⟨2024, 10, 1⟩, 0, 0, 1, "2024-10"⟩, ⟨2, ⟨2024, 10, 2⟩, 0, 0, 1, "2024-10"⟩], 3⟩
        ⟨[⟨1, "B"⟩], 2⟩ ⟨[⟨1, "E", "unclassified"⟩], 2⟩ []
        [⟨1, "B", "c", "E", "t", 0, 0, 5, 0⟩] = .error .statementError :=
  ⟨fun today r => ⟨rfl, rfl⟩, rfl, rfl, by decide, rfl, rfl⟩

/-- C5 counterexample: the store holds (2024-10-01, 0, 0) with id 5; the
existing-rows lookup fails (storage fault) on both calls while the insert
path succeeds.  The resolve call does NOT fail: it commits, returns ok, and
its mapping misses the candidate key even though that key exists in the
store — a partial mapping with a swallowed storage error. -/
theorem c5_lookup_failure_counterexample :
    (insert_or_get_tiempos true false true []
        ⟨[⟨5, ⟨2024, 10, 1⟩, 0, 0, 0, "2024-10"⟩], 6⟩
        [⟨⟨2024, 10, 1⟩, 0, 0, 0, none⟩]).1 =
      ⟨[⟨5, ⟨2024, 10, 1⟩, 0, 0, 0, "2024-10"⟩], 6⟩ ∧
    isOkResolve (insert_or_get_tiempos true false true []
        ⟨[⟨5, ⟨2024, 10, 1⟩, 0, 0, 0, "2024-10"⟩], 6⟩
        [⟨⟨2024, 10, 1⟩, 0, 0, 0, none⟩]).2 = true ∧
    lookupResolve (insert_or_get_tiempos true false true []
        ⟨[⟨5, ⟨2024, 10, 1⟩, 0, 0, 0, "2024-10"⟩], 6⟩
        [⟨⟨2024, 10, 1⟩, 0, 0, 0, none⟩]).2 ⟨⟨2024, 10, 1⟩, 0, 0⟩ = none ∧
    findTiempo [⟨5, ⟨2024, 10, 1⟩, 0, 0, 0, "2024-10"⟩] ⟨⟨2024, 10, 1⟩, 0, 0⟩ = some 5 :=
  ⟨rfl, rfl, rfl, rfl⟩

/-- Helper for the amended C5: with the recovery lookup failing and every
candidate key already present, `_insert_new_tiempos_batch` still returns
normally with no id recovered. -/
theorem insertNewTiemposBatch_swallow (s : TiempoSession) (ts : List TiempoData)
    (hnd : (s.current.rows.map TiempoRow.key).Nodup)
    (hpos : 0 < s.current.nextId)
    (hids : ∀ r ∈ s.current.rows, 0 < r.id_tiempo)
    (hcc : s.committed = s.current)
    (hall : ∀ t ∈ ts, (findTiempo s.current.rows t.key).isSome) :
    ∃ s2 m, insertNewTiemposBatch false true s ts = .ok (s2, m) ∧
      s2.current = s.current ∧ ∀ k, m k = none := by
  match ts with
  | [] => exact ⟨s, fun _ => none, rfl, rfl, fun k => rfl⟩
  | t :: rest =>
    obtain ⟨rows', nid', acc', heq, _, _, _, _, hskip⟩ :=
      insertTiemposLoop_spec (t :: rest) s.current.rows s.current.nextId (fun _ => none)
        hnd hpos hids (by simp)
    obtain ⟨h1, h2, h3⟩ := hskip hall
    rw [h1, h2, h3] at heq
    simp only [insertNewTiemposBatch, Bool.false_eq_true, if_false, heq,
      Option.isNone_none, List.filter_true]
    cases hd : ((t :: rest).map TiempoData.key).dedup with
    | nil =>
      have hmem : t.key ∈ ((t :: rest).map TiempoData.key).dedup :=
        List.mem_dedup.mpr (by simp)
      rw [hd] at hmem
      simp at hmem
    | cons k0 ks =>
      refine ⟨⟨s.committed, s.committed⟩, unionMap (fun _ => none) (fun _ => none),
        ?_, hcc, ?_⟩
      · simp [getExistingTiemposBatch]
      · intro k
        simp [unionMap]

/-- C5 (amended): a storage failure during the existing-rows lookup is caught
inside `_get_existing_tiempos_batch`, which rolls back and returns an empty
map, so `insert_or_get_tiempos` can commit and return normally with a mapping
that misses candidate keys already present in the store; only a failure in
the insert phase fails the whole call, and in that case the error propagates
and nothing from the call is committed (the store is returned unchanged). -/
theorem c5_resolution_failure_amended :
    (∀ (db : TiempoDB) (data : List TiempoData) (b : Bool), data ≠ [] →
      insert_or_get_tiempos true true b [] db data = (db, .error .storageFailure)) ∧
    (∀ (db : TiempoDB) (data : List TiempoData), TiempoWF db →
      (∀ t ∈ data, (findTiempo db.rows t.key).isSome) →
      ∃ m, insert_or_get_tiempos true false true [] db data = (db, .ok m) ∧
        ∀ t ∈ data, m t.key = none) := by
  constructor
  · intro db data b hne
    match data with
    | [] => exact absurd rfl hne
    | d :: ds =>
      simp [insert_or_get_tiempos, getExistingTiemposBatch, commitConcurrentTiempos,
        List.filter_true, insertNewTiemposBatch]
  · intro db data hwf hall
    obtain ⟨hnd, hpos, hids⟩ := hwf
    obtain ⟨s2, m', heqS, hs2cur, hmnone⟩ :=
      insertNewTiemposBatch_swallow ⟨db, db⟩ data hnd hpos hids rfl hall
    refine ⟨unionMap (fun _ => none) m', ?_, ?_⟩
    · simp [insert_or_get_tiempos, getExistingTiemposBatch, commitConcurrentTiempos,
        List.filter_true, heqS, hs2cur]
    · intro t htm
      simp [unionMap, hmnone]

/-- C5 witness: the amended theorem applied to concrete stores — an insert
failure propagates with nothing committed, and a swallowed lookup failure
yields a committed, ok, key-less mapping. -/
theorem c5_witness :
    insert_or_get_tiempos true true false [] ⟨[], 1⟩ [⟨⟨2024, 10, 1⟩, 0, 0, 0, none⟩] =
      (⟨[], 1⟩, .error .storageFailure) ∧
    (∃ m, insert_or_get_tiempos true false true []
        ⟨[⟨5, ⟨2024, 10, 1⟩, 0, 0, 0, "2024-10"⟩], 6⟩ [⟨⟨2024, 10, 1⟩, 0, 0, 0, none⟩] =
        (⟨[⟨5, ⟨2024, 10, 1⟩, 0, 0, 0, "2024-10"⟩], 6⟩, .ok m) ∧
      ∀ t ∈ [(⟨⟨2024, 10, 1⟩, 0, 0, 0, none⟩ : TiempoData)], m t.key = none) :=
  ⟨c5_resolution_failure_amended.1 ⟨[], 1⟩ [⟨⟨2024, 10, 1⟩, 0, 0, 0, none⟩] false
      (by simp),
    c5_resolution_failure_amended.2 ⟨[⟨5, ⟨2024, 10, 1⟩, 0, 0, 0, "2024-10"⟩], 6⟩
      [⟨⟨2024, 10, 1⟩, 0, 0, 0, none⟩] ⟨by simp, by decide, by decide⟩ (by decide)⟩

/-- C6: in the marginal-price pipeline, a row whose referenced dimension key
resolves to nothing is excluded from the insert set, every submitted row
carries ids that come from the resolved maps (never none and never the
falsy 0), and the count the fact loader returns equals the number of rows
submitted after this filtering — the length of `preciosToInsert`, not the
length of the batch read from the file. -/
theorem c6_precios_filter_and_count
    (tdb : TiempoDB) (bdb : BarraDB) (fdb : List PrecioFact) (batch : List PrecioRow)
    (ht : TiempoWF tdb) (hb : BarraWF bdb) :
    (∀ (tm : TiempoKey → Option Nat) (bm : String → Option Nat) (r : PrecioRow),
      tm (precioTiempoKey r) = none → precioRowBuild tm bm r = none) ∧
    (∀ (tm : TiempoKey → Option Nat) (bm : String → Option Nat) (r : PrecioRow),
      bm r.BARRA = none → precioRowBuild tm bm r = none) ∧
    (∀ (tm : TiempoKey → Option Nat) (bm : String → Option Nat) (r : PrecioRow)
      (fr : PrecioFact), precioRowBuild tm bm r = some fr →
      tm (precioTiempoKey r) = some fr.tiempo_id ∧ bm r.BARRA = some fr.barra_id ∧
      fr.tiempo_id ≠ 0 ∧ fr.barra_id ≠ 0) ∧
    (∃ tdb1 bdb1 tm bm,
      insert_or_get_barras [] bdb ((batch.map (fun r => r.BARRA)).dedup) =
        (bdb1, .ok bm) ∧
      insert_or_get_tiempos false false false [] tdb (batch.map precioTiempoData) =
        (tdb1, .ok tm) ∧
      process_precios_batch tdb bdb fdb batch =
        .ok (tdb1, bdb1, fdb ++ preciosToInsert tm bm batch,
          (preciosToInsert tm bm batch).length)) := by
  refine ⟨?_, ?_, ?_, ?_⟩
  · intro tm bm r h
    simp [precioRowBuild, h, truthy]
  · intro tm bm r h
    simp [precioRowBuild, h, truthy]
  · intro tm bm r fr h
    exact precioRowBuild_some tm bm r fr h
  · obtain ⟨bdb1, bm, heqB, _, _, _, _, _⟩ :=
      insert_or_get_barras_spec bdb ((batch.map (fun r => r.BARRA)).dedup) hb
    obtain ⟨tdb1, tm, heqT, _, _, _, _, _⟩ :=
      insert_or_get_tiempos_spec tdb (batch.map precioTiempoData) [] ht
    refine ⟨tdb1, bdb1, tm, bm, heqB, heqT, ?_⟩
    simp only [process_precios_batch, heqB, heqT]
    cases hpi : preciosToInsert tm bm batch with
    | nil => simp
    | cons p ps => simp [insert_precios_marginales]

/-- C6 witness: the theorem applied to an empty store and a two-row batch;
the pipeline returns count 2 — the submitted rows. -/
theorem c6_witness :
    (∀ (tm : TiempoKey → Option Nat) (bm : String → Option Nat) (r : PrecioRow),
      tm (precioTiempoKey r) = none → precioRowBuild tm bm r = none) ∧
    (∀ (tm : TiempoKey → Option Nat) (bm : String → Option Nat) (r : PrecioRow),
      bm r.BARRA = none → precioRowBuild tm bm r = none) ∧
    (∀ (tm : TiempoKey → Option Nat) (bm : String → Option Nat) (r : PrecioRow)
      (fr : PrecioFact), precioRowBuild tm bm r = some fr →
      tm (precioTiempoKey r) = some fr.tiempo_id ∧ bm r.BARRA = some fr.barra_id ∧
      fr.tiempo_id ≠ 0 ∧ fr.barra_id ≠ 0) ∧
    (∃ tdb1 bdb1 tm bm,
      insert_or_get_barras [] ⟨[], 1⟩
        (([(⟨⟨2024, 10, 1⟩, 0, 0, "B1", 0, 0, 0⟩ : PrecioRow),
           ⟨⟨2024, 10, 1⟩, 0, 15, "B2", 0, 0, 0⟩].map (fun r => r.BARRA)).dedup) =
        (bdb1, .ok bm) ∧
      insert_or_get_tiempos false false false [] ⟨[], 1⟩
        ([(⟨⟨2024, 10, 1⟩, 0, 0, "B1", 0, 0, 0⟩ : PrecioRow),
          ⟨⟨2024, 10, 1⟩, 0, 15, "B2", 0, 0, 0⟩].map precioTiempoData) = (tdb1, .ok tm) ∧
      process_precios_batch ⟨[], 1⟩ ⟨[], 1⟩ []
        [⟨⟨2024, 10, 1⟩, 0, 0, "B1", 0, 0, 0⟩, ⟨⟨2024, 10, 1⟩, 0, 15, "B2", 0, 0, 0⟩] =
        .ok (tdb1, bdb1,
          [] ++ preciosToInsert tm bm
            [⟨⟨2024, 10, 1⟩, 0, 0, "B1", 0, 0, 0⟩, ⟨⟨2024, 10, 1⟩, 0, 15, "B2", 0, 0, 0⟩],
          (preciosToInsert tm bm
            [⟨⟨2024, 10, 1⟩, 0, 0, "B1", 0, 0, 0⟩,
             ⟨⟨2024, 10, 1⟩, 0, 15, "B2", 0, 0, 0⟩]).length)) :=
  c6_precios_filter_and_count ⟨[], 1⟩ ⟨[], 1⟩ []
    [⟨⟨2024, 10, 1⟩, 0, 0, "B1", 0, 0, 0⟩, ⟨⟨2024, 10, 1⟩, 0, 15, "B2", 0, 0, 0⟩]
    ⟨by simp, by decide, by simp⟩ ⟨by simp, by decide, by simp⟩

/-- C3: in the withdrawal pipeline, both the supplier name (Suministrador)
and the withdrawal-party name (Retiro) are resolved to surrogate keys through
the counterparty (Empresa) dimension by an insert-or-get performed before the
fact insert — every batch row's two counterparty names end up with positive
authoritative ids in the post-resolve store, every row of the insert set
carries counterparty ids that come from that resolved map — and a row whose
counterparty lookup fails resolves to `none` and is dropped from the insert
set.  The subsequent fact insert is then attempted on the filtered set: it
returns count 0 when the set is empty and raises `StatementError` otherwise
(its `:suministrador`/`:retiro`/`:clave_anio_mes` bind parameters are not in
the dicts the processor builds). -/
theorem c3_counterparty_resolution
    (tdb : TiempoDB) (bdb : BarraDB) (edb : EmpresaDB) (fdb : List RetiroFact)
    (batch : List RetiroRow) (ht : TiempoWF tdb) (hb : BarraWF bdb)
    (he : EmpresaWF edb) :
    (∀ (tm : TiempoKey → Option Nat) (bm em : String → Option Nat) (r : RetiroRow),
      em r.Suministrador = none → retiroRowBuild tm bm em r = none) ∧
    (∀ (tm : TiempoKey → Option Nat) (bm em : String → Option Nat) (r : RetiroRow),
      em r.Retiro = none → retiroRowBuild tm bm em r = none) ∧
    (∃ tdb1 bdb1 edb1 tm bm em,
      insert_or_get_empresas edb (empresasUnicasRetiros batch) = (edb1, em) ∧
      insert_or_get_barras [] bdb ((batch.map (fun r => r.Barra)).dedup) =
        (bdb1, .ok bm) ∧
      insert_or_get_tiempos false false false [] tdb (batch.map retiroTiempoData) =
        (tdb1, .ok tm) ∧
      (retirosToInsert tm bm em batch = [] →
        process_retiros_batch tdb bdb edb fdb batch = .ok (tdb1, bdb1, edb1, fdb, 0)) ∧
      (∀ p ps, retirosToInsert tm bm em batch = p :: ps →
        process_retiros_batch tdb bdb edb fdb batch = .error .statementError) ∧
      (∀ r ∈ batch, ∃ si ri, em r.Suministrador = some si ∧ em r.Retiro = some ri ∧
        findEmpresa edb1.rows r.Suministrador = some si ∧
        findEmpresa edb1.rows r.Retiro = some ri ∧ 0 < si ∧ 0 < ri) ∧
      (∀ fr ∈ retirosToInsert tm bm em batch, ∃ r ∈ batch,
        em r.Suministrador = some fr.suministrador_id ∧
        em r.Retiro = some fr.retiro_id ∧
        fr.suministrador_id ≠ 0 ∧ fr.retiro_id ≠ 0)) := by
  refine ⟨?_, ?_, ?_⟩
  · intro tm bm em r h
    simp [retiroRowBuild, h, truthy]
  · intro tm bm em r h
    simp [retiroRowBuild, h, truthy]
  · obtain ⟨edb1, em, heqE, hwfE1, _, _, hcovE⟩ :=
      insert_or_get_empresas_spec edb (empresasUnicasRetiros batch) he
    obtain ⟨bdb1, bm, heqB, _, _, _, _, _⟩ :=
      insert_or_get_barras_spec bdb ((batch.map (fun r => r.Barra)).dedup) hb
    obtain ⟨tdb1, tm, heqT, _, _, _, _, _⟩ :=
      insert_or_get_tiempos_spec tdb (batch.map retiroTiempoData) [] ht
    refine ⟨tdb1, bdb1, edb1, tm, bm, em, heqE, heqB, heqT, ?_, ?_, ?_, ?_⟩
    · intro h
      simp only [process_retiros_batch, heqB, heqE, heqT, h]
    · intro p ps h
      simp only [process_retiros_batch, heqB, heqE, heqT, h]
      simp [insert_retiros_energia]
    · intro r hr
      have hsmem : r.Suministrador ∈ empresasUnicasRetiros batch :=
        List.mem_dedup.mpr (List.mem_append.mpr
          (Or.inl (List.mem_map_of_mem (fun r => r.Suministrador) hr)))
      have hrmem : r.Retiro ∈ empresasUnicasRetiros batch :=
        List.mem_dedup.mpr (List.mem_append.mpr
          (Or.inr (List.mem_map_of_mem (fun r => r.Retiro) hr)))
      obtain ⟨hsomeS, hmS⟩ := hcovE r.Suministrador hsmem
      obtain ⟨hsomeR, hmR⟩ := hcovE r.Retiro hrmem
      obtain ⟨si, hsi⟩ := Option.isSome_iff_exists.mp hsomeS
      obtain ⟨ri, hri⟩ := Option.isSome_iff_exists.mp hsomeR
      exact ⟨si, ri, by rw [hmS, hsi], by rw [hmR, hri], hsi, hri,
        findEmpresa_pos edb1.rows r.Suministrador si hwfE1.2.2 hsi,
        findEmpresa_pos edb1.rows r.Retiro ri hwfE1.2.2 hri⟩
    · intro fr hfr
      obtain ⟨r, hr, hbuild⟩ := List.mem_filterMap.mp hfr
      obtain ⟨_, _, hS, hR, _, _, hSne, hRne⟩ := retiroRowBuild_some tm bm em r fr hbuild
      exact ⟨r, hr, hS, hR, hSne, hRne⟩

/-- C3 witness: the theorem applied to empty stores and a one-row batch whose
supplier is "S" and withdrawal party is "R". -/
theorem c3_witness :
    (∀ (tm : TiempoKey → Option Nat) (bm em : String → Option Nat) (r : RetiroRow),
      em r.Suministrador = none → retiroRowBuild tm bm em r = none) ∧
    (∀ (tm : TiempoKey → Option Nat) (bm em : String → Option Nat) (r : RetiroRow),
      em r.Retiro = none → retiroRowBuild tm bm em r = none) ∧
    (∃ tdb1 bdb1 edb1 tm bm em,
      insert_or_get_empresas ⟨[], 1⟩
        (empresasUnicasRetiros [⟨1, "B", "S", "R", "c", "t", 0, ⟨2024, 10, 1⟩⟩]) =
        (edb1, em) ∧
      insert_or_get_barras [] ⟨[], 1⟩
        (([(⟨1, "B", "S", "R", "c", "t", 0, ⟨2024, 10, 1⟩⟩ : RetiroRow)].map
          (fun r => r.Barra)).dedup) = (bdb1, .ok bm) ∧
      insert_or_get_tiempos false false false [] ⟨[], 1⟩
        ([(⟨1, "B", "S", "R", "c", "t", 0, ⟨2024, 10, 1⟩⟩ : RetiroRow)].map
          retiroTiempoData) = (tdb1, .ok tm) ∧
      (retirosToInsert tm bm em [⟨1, "B", "S", "R", "c", "t", 0, ⟨2024, 10, 1⟩⟩] = [] →
        process_retiros_batch ⟨[], 1⟩ ⟨[], 1⟩ ⟨[], 1⟩ []
          [⟨1, "B", "S", "R", "c", "t", 0, ⟨2024, 10, 1⟩⟩] =
          .ok (tdb1, bdb1, edb1, [], 0)) ∧
      (∀ p ps, retirosToInsert tm bm em
          [⟨1, "B", "S", "R", "c", "t", 0, ⟨2024, 10, 1⟩⟩] = p :: ps →
        process_retiros_batch ⟨[], 1⟩ ⟨[], 1⟩ ⟨[], 1⟩ []
          [⟨1, "B", "S", "R", "c", "t", 0, ⟨2024, 10, 1⟩⟩] = .error .statementError) ∧
      (∀ r ∈ [(⟨1, "B", "S", "R", "c", "t", 0, ⟨2024, 10, 1⟩⟩ : RetiroRow)],
        ∃ si ri, em r.Suministrador = some si ∧ em r.Retiro = some ri ∧
        findEmpresa edb1.rows r.Suministrador = some si ∧
        findEmpresa edb1.rows r.Retiro = some ri ∧ 0 < si ∧ 0 < ri) ∧
      (∀ fr ∈ retirosToInsert tm bm em [⟨1, "B", "S", "R", "c", "t", 0, ⟨2024, 10, 1⟩⟩],
        ∃ r ∈ [(⟨1, "B", "S", "R", "c", "t", 0, ⟨2024, 10, 1⟩⟩ : RetiroRow)],
        em r.Suministrador = some fr.suministrador_id ∧
        em r.Retiro = some fr.retiro_id ∧
        fr.suministrador_id ≠ 0 ∧ fr.retiro_id ≠ 0)) :=
  c3_counterparty_resolution ⟨[], 1⟩ ⟨[], 1⟩ ⟨[], 1⟩ []
    [⟨1, "B", "S", "R", "c", "t", 0, ⟨2024, 10, 1⟩⟩]
    ⟨by simp, by decide, by simp⟩ ⟨by simp, by decide, by simp⟩
    ⟨by simp, by decide, by simp⟩
